import Mathlib

/-!
The registry client of manifactory (`internal/client/client.go`).

A shallow embedding of the Docker Registry v2 client: the token negotiation
(`Token`), the request dispatcher (`request`) with its per-scope credential
cache, and the three API operations (`Catalog`, `Tags`, `Manifest`).

Go strings are Lean `String`s.  The client mutates `cli.creds` and talks to the
network; both are made explicit: every function takes the `Client` and the
trace of observable events so far and returns the updated ones.  The network
and the parts of the Go standard library that depend on it (`net/url`,
`net/http`) are the fields of `Env`; `regexp`, `encoding/json`,
`encoding/base64` and `strings.Contains` are modelled concretely.
-/

set_option autoImplicit false
set_option maxRecDepth 100000

namespace Manifactory

/-! ## Errors -/

/-- Go `error` values that the client produces or passes on. -/
inductive GoError where
  /-- Value of `errors.New(msg)`, and of `fmt.Errorf` without a `%w` verb. -/
  | errorsNew (msg : String)
  /-- Value of `fmt.Errorf(pfx + "%w", inner)`: a new error wrapping `inner`. -/
  | wrap (pfx : String) (inner : GoError)
  /-- A `*json.SyntaxError`: the input is not one valid JSON value. -/
  | jsonSyntax
  /-- A `*json.UnmarshalTypeError`; `value` is its `Value` field (the JSON kind). -/
  | jsonType (value : String)
  /-- An error made by `net/url`, `net/http` or `io` (parse, transport, read). -/
  | lib (msg : String)
  deriving DecidableEq, Repr

/-- The text of `err.Error()`.  The text of a JSON error depends on the
offending input and is cut short here; the client never reads it. -/
def GoError.message : GoError → String
  | .errorsNew msg => msg
  | .wrap pfx inner => pfx ++ inner.message
  | .jsonSyntax => "invalid JSON"
  | .jsonType value => "json: cannot unmarshal " ++ value
  | .lib msg => msg

/-- The error of `fmt.Errorf("status code: %d", resp.StatusCode)`. -/
def statusError (code : Nat) : GoError :=
  .errorsNew ("status code: " ++ toString code)

/-! ## Characters and substrings -/

/-- The double quote `"` (U+0022). -/
def dquote : Char := Char.ofNat 34

/-- The line feed (U+000A), the one character `.` does not match. -/
def newline : Char := Char.ofNat 10

/-- Whether `sub` occurs in `s` as a contiguous run (lists of characters). -/
def containsChars : List Char → List Char → Bool
  | [], sub => sub.isPrefixOf []
  | c :: cs, sub => sub.isPrefixOf (c :: cs) || containsChars cs sub

/-- Go `strings.Contains(s, substr)`. -/
def stringsContains (s substr : String) : Bool :=
  containsChars s.data substr.data

/-! ## The regular expression of `Token`

`regexp.Compile` of the constant `Bearer realm="(.+)",service="(.+)"` cannot
fail.  The pattern is a sequence of literal runs and two capture groups `(.+)`;
`ReItem` is that pattern class.  Go matches leftmost-first: the match starts as
early as possible and, among the matches starting there, is the one a
backtracking search finds first; `+` is greedy, and `.` matches every character
but the line feed. -/

/-- One element of a compiled pattern. -/
inductive ReItem where
  /-- A run of literal characters. -/
  | lit (cs : List Char)
  /-- The capture group `(.+)`. -/
  | group
  deriving DecidableEq, Repr

/-- The pattern `Bearer realm="(.+)",service="(.+)"`. -/
def challengeRe : List ReItem :=
  [.lit "Bearer realm=\"".data, .group, .lit "\",service=\"".data, .group, .lit "\"".data]

/-- Length of the longest run of characters at the head of `s` that `.` matches. -/
def dotRun : List Char → Nat
  | [] => 0
  | c :: cs => if c = newline then 0 else dotRun cs + 1

/-- Backtracking match of `items` at the head of `s`: the captured groups and
the input left after the match.  A group tries its longest run first. -/
def reMatchAt : List ReItem → List Char → Option (List (List Char) × List Char)
  | [], s => some ([], s)
  | .lit l :: rest, s =>
    if l.isPrefixOf s then reMatchAt rest (s.drop l.length) else none
  | .group :: rest, s =>
    (List.range (dotRun s)).reverse.findSome? fun k =>
      (reMatchAt rest (s.drop (k + 1))).map fun r => (s.take (k + 1) :: r.1, r.2)

/-- Leftmost match of `items` anywhere in `s`: the whole match followed by the
captured groups. -/
def reFind (items : List ReItem) : List Char → Option (List (List Char))
  | [] =>
    (reMatchAt items []).map fun r => [] :: r.1
  | c :: cs =>
    match reMatchAt items (c :: cs) with
    | some r => some ((c :: cs).take ((c :: cs).length - r.2.length) :: r.1)
    | none => reFind items cs

/-- Go `re.FindStringSubmatch(v)`: `nil` (the empty list) when there is no
match, otherwise the match and its groups. -/
def findStringSubmatch (re : List ReItem) (v : String) : List String :=
  match reFind re v.data with
  | none => []
  | some ms => ms.map String.mk

/-- The loop of `Token` over the `Www-Authenticate` values (client.go 226-238):
the realm and service of the first value the pattern matches. -/
def parseChallenge : List String → Option (String × String)
  | [] => none
  | v :: vs =>
    let matches_ := findStringSubmatch challengeRe v
    if matches_.length = 3 then some (matches_.getD 1 "", matches_.getD 2 "")
    else parseChallenge vs

/-! ## `encoding/json`

`json.Unmarshal(data, &v)` first checks that `data` is exactly one valid JSON
value (else a `*json.SyntaxError`), then stores it into `v`.  The check is a
scanner over the characters followed by a push-down parser over the tokens,
which also keeps the nesting within the limit of `encoding/json`; both are
folds over their input. -/

/-- A parsed JSON value; a number keeps its literal text. -/
inductive Json where
  | null
  | bool (b : Bool)
  | num (lit : String)
  | str (s : String)
  | arr (elems : List Json)
  | obj (members : List (String × Json))

/-- One unit of a JSON string: a character, or the code unit of a `\uXXXX` escape. -/
inductive SUnit where
  | ch (c : Char)
  | u16 (n : Nat)
  deriving DecidableEq, Repr

/-- Characters of a string from its units: a high and a low surrogate side by
side make one character, a lone surrogate becomes U+FFFD. -/
def decodeUnits : List SUnit → List Char
  | [] => []
  | .ch c :: rest => c :: decodeUnits rest
  | .u16 hi :: .u16 lo :: rest =>
    if 0xD800 ≤ hi ∧ hi < 0xDC00 ∧ 0xDC00 ≤ lo ∧ lo < 0xE000 then
      Char.ofNat (0x10000 + (hi - 0xD800) * 0x400 + (lo - 0xDC00)) :: decodeUnits rest
    else if 0xD800 ≤ hi ∧ hi < 0xE000 then
      Char.ofNat 0xFFFD :: decodeUnits (.u16 lo :: rest)
    else Char.ofNat hi :: decodeUnits (.u16 lo :: rest)
  | .u16 n :: rest =>
    (if 0xD800 ≤ n ∧ n < 0xE000 then Char.ofNat 0xFFFD else Char.ofNat n) :: decodeUnits rest

/-- JSON tokens. -/
inductive JTok where
  | lbrace | rbrace | lbrack | rbrack | colon | comma
  | str (s : String)
  | num (lit : String)
  | tTrue | tFalse | tNull
  deriving DecidableEq, Repr

/-- Where the scanner stands inside a number literal. -/
inductive NumSt where
  | minus | zero | int | dot | frac | e | eSign | exp
  deriving DecidableEq, Repr

/-- What the scanner is in the middle of. -/
inductive LexMode where
  /-- Between tokens. -/
  | top
  /-- Inside a string; `acc` holds the units read, last first. -/
  | str (acc : List SUnit)
  /-- Right after a backslash inside a string. -/
  | esc (acc : List SUnit)
  /-- Inside `\uXXXX`; `digits` are the hex digits read so far. -/
  | hex (acc : List SUnit) (digits : List Nat)
  /-- Inside a number; `acc` holds its characters, last first. -/
  | num (acc : List Char) (st : NumSt)
  /-- Inside `true`, `false` or `null`; `rest` is still to come. -/
  | word (rest : List Char) (tok : JTok)
  deriving DecidableEq, Repr

/-- Scanner state: the tokens made so far (last first) and the mode. -/
structure LexState where
  toks : List JTok
  mode : LexMode
  deriving DecidableEq, Repr

/-- Value of a hexadecimal digit. -/
def hexVal (c : Char) : Option Nat :=
  if '0' ≤ c ∧ c ≤ '9' then some (c.toNat - 48)
  else if 'a' ≤ c ∧ c ≤ 'f' then some (c.toNat - 87)
  else if 'A' ≤ c ∧ c ≤ 'F' then some (c.toNat - 55)
  else none

/-- A character between tokens. -/
def lexTop (toks : List JTok) (c : Char) : Option LexState :=
  if c = ' ' ∨ c = Char.ofNat 9 ∨ c = Char.ofNat 10 ∨ c = Char.ofNat 13 then some ⟨toks, .top⟩
  else if c = Char.ofNat 123 then some ⟨.lbrace :: toks, .top⟩
  else if c = Char.ofNat 125 then some ⟨.rbrace :: toks, .top⟩
  else if c = Char.ofNat 91 then some ⟨.lbrack :: toks, .top⟩
  else if c = Char.ofNat 93 then some ⟨.rbrack :: toks, .top⟩
  else if c = ':' then some ⟨.colon :: toks, .top⟩
  else if c = ',' then some ⟨.comma :: toks, .top⟩
  else if c = dquote then some ⟨toks, .str []⟩
  else if c = '-' then some ⟨toks, .num [c] .minus⟩
  else if c = '0' then some ⟨toks, .num [c] .zero⟩
  else if '1' ≤ c ∧ c ≤ '9' then some ⟨toks, .num [c] .int⟩
  else if c = 't' then some ⟨toks, .word "rue".data .tTrue⟩
  else if c = 'f' then some ⟨toks, .word "alse".data .tFalse⟩
  else if c = 'n' then some ⟨toks, .word "ull".data .tNull⟩
  else none

/-- The character after a backslash. -/
def lexEsc (toks : List JTok) (acc : List SUnit) (c : Char) : Option LexState :=
  if c = dquote ∨ c = Char.ofNat 92 ∨ c = '/' then some ⟨toks, .str (.ch c :: acc)⟩
  else if c = 'b' then some ⟨toks, .str (.ch (Char.ofNat 8) :: acc)⟩
  else if c = 'f' then some ⟨toks, .str (.ch (Char.ofNat 12) :: acc)⟩
  else if c = 'n' then some ⟨toks, .str (.ch (Char.ofNat 10) :: acc)⟩
  else if c = 'r' then some ⟨toks, .str (.ch (Char.ofNat 13) :: acc)⟩
  else if c = 't' then some ⟨toks, .str (.ch (Char.ofNat 9) :: acc)⟩
  else if c = 'u' then some ⟨toks, .hex acc []⟩
  else none

/-- The number state after one more character, `none` when `c` does not
continue the literal. -/
def numNext (st : NumSt) (c : Char) : Option NumSt :=
  let digit : Bool := decide ('0' ≤ c ∧ c ≤ '9')
  match st with
  | .minus => if c = '0' then some .zero else if digit then some .int else none
  | .zero => if c = '.' then some .dot else if c = 'e' ∨ c = 'E' then some .e else none
  | .int =>
    if digit then some .int else if c = '.' then some .dot
    else if c = 'e' ∨ c = 'E' then some .e else none
  | .dot => if digit then some .frac else none
  | .frac => if digit then some .frac else if c = 'e' ∨ c = 'E' then some .e else none
  | .e => if c = '+' ∨ c = '-' then some .eSign else if digit then some .exp else none
  | .eSign => if digit then some .exp else none
  | .exp => if digit then some .exp else none

/-- Whether a number may end in this state. -/
def numDone : NumSt → Bool
  | .zero | .int | .frac | .exp => true
  | _ => false

/-- One character of input. -/
def lexStep (s : LexState) (c : Char) : Option LexState :=
  match s.mode with
  | .top => lexTop s.toks c
  | .str acc =>
    if c = dquote then some ⟨.str (String.mk (decodeUnits acc.reverse)) :: s.toks, .top⟩
    else if c = Char.ofNat 92 then some ⟨s.toks, .esc acc⟩
    else if c.toNat < 32 then none
    else some ⟨s.toks, .str (.ch c :: acc)⟩
  | .esc acc => lexEsc s.toks acc c
  | .hex acc digits =>
    match hexVal c with
    | none => none
    | some d =>
      if digits.length = 3 then
        some ⟨s.toks, .str (.u16 ((digits ++ [d]).foldl (fun n x => 16 * n + x) 0) :: acc)⟩
      else some ⟨s.toks, .hex acc (digits ++ [d])⟩
  | .num acc st =>
    match numNext st c with
    | some st1 => some ⟨s.toks, .num (c :: acc) st1⟩
    | none =>
      if numDone st then lexTop (.num (String.mk acc.reverse) :: s.toks) c else none
  | .word rest tok =>
    match rest with
    | [] => none
    | r :: rs =>
      if c = r then (if rs = [] then some ⟨tok :: s.toks, .top⟩ else some ⟨s.toks, .word rs tok⟩)
      else none

/-- The tokens of `cs`, `none` when `cs` is not a sequence of JSON tokens. -/
def lex (cs : List Char) : Option (List JTok) :=
  match cs.foldlM lexStep ⟨[], .top⟩ with
  | none => none
  | some s =>
    match s.mode with
    | .top => some s.toks.reverse
    | .num acc st =>
      if numDone st then some (JTok.num (String.mk acc.reverse) :: s.toks).reverse else none
    | _ => none

/-- An array or object being read. -/
inductive Frame where
  /-- An array and its elements so far, last first. -/
  | arr (acc : List Json)
  /-- An object, its members so far (last first) and the key last read. -/
  | obj (acc : List (String × Json)) (key : String)

/-- What the parser accepts next. -/
inductive Expect where
  | value | valueOrClose | keyOrClose | key | colon | commaOrClose
  /-- The whole value has been read. -/
  | done (v : Json)

/-- Parser state: the open arrays and objects, innermost first. -/
structure PState where
  stack : List Frame
  expect : Expect

/-- A value is complete: it goes into the innermost open container. -/
def pValue (stack : List Frame) (v : Json) : PState :=
  match stack with
  | [] => ⟨[], .done v⟩
  | .arr acc :: fs => ⟨.arr (v :: acc) :: fs, .commaOrClose⟩
  | .obj acc k :: fs => ⟨.obj ((k, v) :: acc) k :: fs, .commaOrClose⟩

/-- The `maxNestingDepth` of `encoding/json`: arrays and objects nested deeper
than this are a syntax error ("exceeded max depth"). -/
def maxNestingDepth : Nat := 10000

/-- A token that starts a value; an array or object is opened only while the
nesting stays within `maxNestingDepth`. -/
def pStart (stack : List Frame) (t : JTok) : Option PState :=
  match t with
  | .str s => some (pValue stack (.str s))
  | .num l => some (pValue stack (.num l))
  | .tTrue => some (pValue stack (.bool true))
  | .tFalse => some (pValue stack (.bool false))
  | .tNull => some (pValue stack .null)
  | .lbrack =>
    if stack.length < maxNestingDepth then some ⟨.arr [] :: stack, .valueOrClose⟩ else none
  | .lbrace =>
    if stack.length < maxNestingDepth then some ⟨.obj [] "" :: stack, .keyOrClose⟩ else none
  | _ => none

/-- A closing bracket or brace. -/
def pClose (stack : List Frame) (t : JTok) : Option PState :=
  match t, stack with
  | .rbrack, .arr acc :: fs => some (pValue fs (.arr acc.reverse))
  | .rbrace, .obj acc _ :: fs => some (pValue fs (.obj acc.reverse))
  | _, _ => none

/-- A member key. -/
def pKey (stack : List Frame) (t : JTok) : Option PState :=
  match t, stack with
  | .str k, .obj acc _ :: fs => some ⟨.obj acc k :: fs, .colon⟩
  | _, _ => none

/-- One token of input. -/
def pStep (s : PState) (t : JTok) : Option PState :=
  match s.expect with
  | .value => pStart s.stack t
  | .valueOrClose => if t = .rbrack then pClose s.stack t else pStart s.stack t
  | .keyOrClose => if t = .rbrace then pClose s.stack t else pKey s.stack t
  | .key => pKey s.stack t
  | .colon => if t = .colon then some ⟨s.stack, .value⟩ else none
  | .commaOrClose =>
    if t = .comma then
      match s.stack with
      | [] => none
      | .arr _ :: _ => some ⟨s.stack, .value⟩
      | .obj _ _ :: _ => some ⟨s.stack, .key⟩
    else pClose s.stack t
  | .done _ => none

/-- The JSON value that `body` is, `none` when `encoding/json` does not accept
`body`: it is not one JSON value, or it is nested deeper than `maxNestingDepth`. -/
def jsonParse (body : String) : Option Json :=
  match lex body.data with
  | none => none
  | some toks =>
    match toks.foldlM pStep ⟨[], .value⟩ with
    | some ⟨_, .done v⟩ => some v
    | _ => none

/-- The `Value` field of the `UnmarshalTypeError` for a JSON value of the wrong
kind (the literal of a number is added only for an `int` it does not fit). -/
def jsonKind : Json → String
  | .null => "null"
  | .bool _ => "bool"
  | .num _ => "number"
  | .str _ => "string"
  | .arr _ => "array"
  | .obj _ => "object"

/-- The first of two recorded errors: `Unmarshal` goes on after a type error
and reports the first one. -/
def firstErr : Option GoError → Option GoError → Option GoError
  | some e, _ => some e
  | none, r => r

/-- Case folding of member keys as `encoding/json` does it for ASCII field
names: ASCII letters fold to lower case, the Kelvin sign to `k` and the long s
to `s`. -/
def foldRune (c : Char) : Char :=
  if c = Char.ofNat 0x212A then 'k' else if c = Char.ofNat 0x17F then 's' else c.toLower

/-- Whether the member key `key` selects the struct field named `field`
(exact or case-insensitive match). -/
def keyIs (key field : String) : Bool :=
  key.data.map foldRune == field.data.map foldRune

/-- Value of a non-empty run of decimal digits. -/
def digitsValue (cs : List Char) : Option Nat :=
  if cs ≠ [] ∧ cs.all Char.isDigit = true then
    some (cs.foldl (fun n c => 10 * n + (c.toNat - 48)) 0)
  else none

/-- Go `strconv.ParseInt(lit, 10, 64)` on a JSON number literal. -/
def parseInt (lit : String) : Option Int :=
  match lit.data with
  | '-' :: ds => (digitsValue ds).bind fun n => if n ≤ 2 ^ 63 then some (-(n : Int)) else none
  | ds => (digitsValue ds).bind fun n => if n < 2 ^ 63 then some (n : Int) else none

/-- Store a JSON value into a `string`; `null` leaves it as it is. -/
def decodeString (cur : String) : Json → String × Option GoError
  | .null => (cur, none)
  | .str s => (s, none)
  | j => (cur, some (.jsonType (jsonKind j)))

/-- Store a JSON value into an `int`; `null` leaves it as it is. -/
def decodeInt (cur : Int) : Json → Int × Option GoError
  | .null => (cur, none)
  | .num lit =>
    match parseInt lit with
    | some n => (n, none)
    | none => (cur, some (.jsonType ("number " ++ lit)))
  | j => (cur, some (.jsonType (jsonKind j)))

/-- The loop of `decodeState.array` over the elements of a JSON array: element
`i` is stored into cell `i` of the backing array of the slice, which holds what
an earlier array left there, or into a zero cell past its end.  Gives the cells
stored into, the cells left behind them, and the first error. -/
def decodeElems {α : Type} (dec : α → Json → α × Option GoError) (zero : α) :
    List Json → List α → List α × List α × Option GoError
  | [], cells => ([], cells, none)
  | j :: js, cells =>
    let r := dec (cells.headD zero) j
    let rest := decodeElems dec zero js cells.tail
    (r.1 :: rest.1, rest.2.1, firstErr r.2 rest.2.2)

/-- Store a JSON value into a slice, given as its elements and the cells of
its backing array behind them: `null` makes it nil, `[]` makes it a new empty
slice, and an array stores its elements into the cells from the first on and
sets the length to their number. -/
def decodeSlice {α : Type} (dec : α → Json → α × Option GoError) (zero : α)
    (cur : List α × List α) : Json → (List α × List α) × Option GoError
  | .null => (([], []), none)
  | .arr [] => (([], []), none)
  | .arr (j :: js) =>
    let r := decodeElems dec zero (j :: js) (cur.1 ++ cur.2)
    ((r.1, r.2.1), r.2.2)
  | j => (cur, some (.jsonType (jsonKind j)))

/-- Store a JSON value into a `[]string`. -/
def decodeStrings (cur : List String × List String) :
    Json → (List String × List String) × Option GoError :=
  decodeSlice decodeString "" cur

/-- Store a JSON value into a struct whose members are stored by `field`, in
the order of the input; `null` leaves the struct as it is. -/
def decodeStruct {α : Type} (field : α → String → Json → α × Option GoError) (cur : α) :
    Json → α × Option GoError
  | .null => (cur, none)
  | .obj members =>
    members.foldl (fun st m => let r := field st.1 m.1 m.2; (r.1, firstErr st.2 r.2)) (cur, none)
  | j => (cur, some (.jsonType (jsonKind j)))

/-- Go `json.Unmarshal(body, &v)` for a struct `v` that starts as `zero`. -/
def unmarshal {α : Type} (field : α → String → Json → α × Option GoError) (zero : α)
    (body : String) : Except GoError α :=
  match jsonParse body with
  | none => .error .jsonSyntax
  | some j =>
    match decodeStruct field zero j with
    | (_, some e) => .error e
    | (v, none) => .ok v

/-- The struct `Token` decodes into: `struct { Token string }`. -/
structure TokenResponse where
  Token : String
  deriving DecidableEq, Repr

/-- The struct `Catalog` decodes into. -/
structure CatalogResponse where
  Repositories : List String
  deriving DecidableEq, Repr

/-- The struct `Tags` decodes into. -/
structure TagsResponse where
  Name : String
  Tags : List String
  deriving DecidableEq, Repr

/-- The anonymous struct of `Manifest.Config` and of the elements of
`Manifest.Layers`. -/
structure Descriptor where
  MediaType : String
  Size : Int
  Digest : String
  deriving DecidableEq, Repr

/-- Go `type Manifest struct`. -/
structure Manifest where
  SchemaVersion : Int
  MediaType : String
  Config : Descriptor
  Layers : List Descriptor
  deriving DecidableEq, Repr

/-- The zero value of the descriptor struct. -/
def Descriptor.zero : Descriptor := ⟨"", 0, ""⟩

/-- The zero value `Manifest{}`. -/
def Manifest.zero : Manifest := ⟨0, "", Descriptor.zero, []⟩

/-- Member of `struct { Token string }` (no tag: the field name is the key). -/
def tokenField (t : TokenResponse) (key : String) (v : Json) : TokenResponse × Option GoError :=
  if keyIs key "Token" then
    let r := decodeString t.Token v
    ({ t with Token := r.1 }, r.2)
  else (t, none)

/-- Member of the catalog struct; next to the struct go the cells of the
backing array of `Repositories` behind its elements. -/
def catalogField (c : CatalogResponse × List String) (key : String) (v : Json) :
    (CatalogResponse × List String) × Option GoError :=
  if keyIs key "repositories" then
    let r := decodeStrings (c.1.Repositories, c.2) v
    (({ c.1 with Repositories := r.1.1 }, r.1.2), r.2)
  else (c, none)

/-- Member of the tags struct; next to the struct go the cells of the backing
array of `Tags` behind its elements. -/
def tagsField (t : TagsResponse × List String) (key : String) (v : Json) :
    (TagsResponse × List String) × Option GoError :=
  if keyIs key "name" then
    let r := decodeString t.1.Name v
    (({ t.1 with Name := r.1 }, t.2), r.2)
  else if keyIs key "tags" then
    let r := decodeStrings (t.1.Tags, t.2) v
    (({ t.1 with Tags := r.1.1 }, r.1.2), r.2)
  else (t, none)

/-- Member of a descriptor struct. -/
def descriptorField (d : Descriptor) (key : String) (v : Json) : Descriptor × Option GoError :=
  if keyIs key "mediaType" then
    let r := decodeString d.MediaType v
    ({ d with MediaType := r.1 }, r.2)
  else if keyIs key "size" then
    let r := decodeInt d.Size v
    ({ d with Size := r.1 }, r.2)
  else if keyIs key "digest" then
    let r := decodeString d.Digest v
    ({ d with Digest := r.1 }, r.2)
  else (d, none)

/-- Store a JSON value into the `Layers` slice. -/
def decodeLayers (cur : List Descriptor × List Descriptor) :
    Json → (List Descriptor × List Descriptor) × Option GoError :=
  decodeSlice (decodeStruct descriptorField) Descriptor.zero cur

/-- Member of `Manifest`; next to the struct go the cells of the backing array
of `Layers` behind its elements. -/
def manifestField (m : Manifest × List Descriptor) (key : String) (v : Json) :
    (Manifest × List Descriptor) × Option GoError :=
  if keyIs key "schemaVersion" then
    let r := decodeInt m.1.SchemaVersion v
    (({ m.1 with SchemaVersion := r.1 }, m.2), r.2)
  else if keyIs key "mediaType" then
    let r := decodeString m.1.MediaType v
    (({ m.1 with MediaType := r.1 }, m.2), r.2)
  else if keyIs key "config" then
    let r := decodeStruct descriptorField m.1.Config v
    (({ m.1 with Config := r.1 }, m.2), r.2)
  else if keyIs key "layers" then
    let r := decodeLayers (m.1.Layers, m.2) v
    (({ m.1 with Layers := r.1.1 }, r.1.2), r.2)
  else (m, none)

/-- Go `json.Unmarshal(body, &t)` with `t := struct { Token string }{}`. -/
def unmarshalToken (body : String) : Except GoError TokenResponse :=
  unmarshal tokenField ⟨""⟩ body

/-- Go `json.Unmarshal(body, &catalogResponse)`. -/
def unmarshalCatalog (body : String) : Except GoError CatalogResponse :=
  (unmarshal catalogField (⟨[]⟩, []) body).map Prod.fst

/-- Go `json.Unmarshal(body, &tagsResponse)`. -/
def unmarshalTags (body : String) : Except GoError TagsResponse :=
  (unmarshal tagsField (⟨"", []⟩, []) body).map Prod.fst

/-- Go `json.Unmarshal(body, &m)` with `m := Manifest{}`. -/
def unmarshalManifest (body : String) : Except GoError Manifest :=
  (unmarshal manifestField (Manifest.zero, []) body).map Prod.fst

/-! ## `encoding/base64` and HTTP messages -/

/-- The alphabet of `base64.StdEncoding`. -/
def b64Alphabet : List Char :=
  "ABCDEFGHIJKLMNOPQRSTUVWXYZabcdefghijklmnopqrstuvwxyz0123456789+/".data

/-- The character for a 6-bit value. -/
def b64Char (n : Nat) : Char := b64Alphabet.getD n 'A'

/-- Go `base64.StdEncoding.EncodeToString` on a list of bytes. -/
def base64Encode : List Nat → List Char
  | a :: b :: c :: rest =>
    b64Char (a / 4) :: b64Char (a % 4 * 16 + b / 16) :: b64Char (b % 16 * 4 + c / 64) ::
      b64Char (c % 64) :: base64Encode rest
  | [a, b] => [b64Char (a / 4), b64Char (a % 4 * 16 + b / 16), b64Char (b % 16 * 4), '=']
  | [a] => [b64Char (a / 4), b64Char (a % 4 * 16), '=', '=']
  | [] => []

/-- The bytes of a Go string (UTF-8). -/
def utf8Bytes (s : String) : List Nat :=
  (s.data.map fun c => (String.utf8EncodeChar c).map UInt8.toNat).flatten

/-- The header value `"Basic " + basicAuth(username, password)` of `net/http`. -/
def basicAuthValue (username password : String) : String :=
  "Basic " ++ String.mk (base64Encode (utf8Bytes (username ++ ":" ++ password)))

/-- An outgoing HTTP request. -/
structure Request where
  method : String
  /-- The raw URL the request was made from. -/
  url : String
  /-- The parameters added to the URL query afterwards (`q.Add`, `q.Encode`). -/
  query : List (String × String)
  /-- The header lines, in the order they were added. -/
  header : List (String × String)
  deriving DecidableEq, Repr

/-- Go `req.Header.Add(key, value)`. -/
def Request.headerAdd (r : Request) (key value : String) : Request :=
  { r with header := r.header ++ [(key, value)] }

/-- Go `req.Header.Set(key, value)`: replaces the values of `key`. -/
def Request.headerSet (r : Request) (key value : String) : Request :=
  { r with header := r.header.filter (fun kv => kv.1 ≠ key) ++ [(key, value)] }

/-- client.go 156-158: one `Accept` line for each entry of `accept`. -/
def Request.addAccept (r : Request) (accept : List String) : Request :=
  accept.foldl (fun q h => q.headerAdd "Accept" h) r

/-- Go `req.SetBasicAuth(username, password)`. -/
def Request.setBasicAuth (r : Request) (username password : String) : Request :=
  r.headerSet "Authorization" (basicAuthValue username password)

/-- An HTTP response as the client sees it. -/
structure Response where
  statusCode : Nat
  /-- The header map: canonical key to values. -/
  header : List (String × List String)
  /-- The bytes `io.ReadAll(resp.Body)` returns. -/
  body : String
  /-- The error `io.ReadAll(resp.Body)` returns, if any. -/
  readErr : Option GoError
  deriving DecidableEq, Repr

/-- Go `resp.Header[key]`: the values under `key`, nil when absent. -/
def headerValues (header : List (String × List String)) (key : String) : List String :=
  (header.lookup key).getD []

/-- The world outside the client. -/
structure Env where
  /-- Go `url.JoinPath(base, elem)`. -/
  joinPath : String → String → Except GoError String
  /-- The error of `url.Parse` inside `http.NewRequest` for a raw URL it rejects. -/
  parseURL : String → Option GoError
  /-- The outcome of `cli.http.Do(req)`, given the requests sent before it. -/
  roundTrip : List Request → Request → Except GoError Response

/-- Observable events, in the order they happen. -/
inductive Event where
  /-- Entry into `Token(scope)`. -/
  | tokenCall (scope : String)
  /-- The request handed to the HTTP transport. -/
  | send (req : Request)
  /-- `Body.Close()` on the response to the `n`-th request sent (from 0). -/
  | bodyClose (n : Nat)
  /-- A line written by `log.Printf`. -/
  | log (msg : String)
  deriving DecidableEq, Repr

/-- The requests sent in a trace. -/
def sent (tr : List Event) : List Request :=
  tr.filterMap fun ev => match ev with
    | .send r => some r
    | _ => none

/-- Go `http.NewRequest(method, url, nil)`. -/
def newRequest (env : Env) (method url : String) : Except GoError Request :=
  match env.parseURL url with
  | some e => .error e
  | none => .ok ⟨method, url, [], []⟩

/-- Go `cli.http.Do(req)`: the response comes with the number of its request. -/
def httpDo (env : Env) (req : Request) (tr : List Event) :
    Except GoError (Response × Nat) × List Event :=
  match env.roundTrip (sent tr) req with
  | .error e => (.error e, tr ++ [.send req])
  | .ok resp => (.ok (resp, (sent tr).length), tr ++ [.send req])

/-- Go `cli.http.Get(url)`. -/
def httpGet (env : Env) (url : String) (tr : List Event) :
    Except GoError (Response × Nat) × List Event :=
  match newRequest env "GET" url with
  | .error e => (.error e, tr)
  | .ok req => httpDo env req tr

/-! ## The client -/

/-- The scope of `Catalog`. -/
def catalogScope : String := "registry:catalog:*"

/-- The scope of `Tags` and `Manifest`. -/
def repositoryScope : String := "repository:*:pull"

/-- The `Accept` values of `Manifest`. -/
def accept : List String := ["application/vnd.docker.distribution.manifest.v2+json"]

/-- Go `type credentials struct`. -/
structure credentials where
  scope : String
  token : String
  deriving DecidableEq, Repr

/-- Go `type Client struct`; the map `creds` is an association list, and the
`*http.Client` is the `roundTrip` of `Env`. -/
structure Client where
  registry : String
  user : String
  pass : String
  creds : List (String × credentials)
  basicAuth : Bool
  deriving DecidableEq, Repr

/-- Go `type Options struct` (the fields that configure the transport are kept
for the record only). -/
structure Options where
  Insecure : Bool
  Timeout : Nat
  BasicAuth : Bool
  deriving DecidableEq, Repr

/-- Go `New(registry, user, pass, opts)`. -/
def New (registry user pass : String) (opts : Options) : Client :=
  { registry := registry, user := user, pass := pass, creds := [], basicAuth := opts.BasicAuth }

/-- Go `m[key] = value` on the credential map. -/
def credsSet (m : List (String × credentials)) (key : String) (value : credentials) :
    List (String × credentials) :=
  (key, value) :: m.filter (fun kv => kv.1 ≠ key)

/-- client.go 261-273: read the body of the token response and decode it. -/
def Client.tokenDecode (resp : Response) : Except GoError String :=
  match resp.readErr with
  | some e => .error e
  | none =>
    match unmarshalToken resp.body with
    | .error e => .error e
    | .ok t => .ok t.Token

/-- client.go 204-241: the checks on the response to the version check, up to
the realm and service of the challenge. -/
def Client.tokenChallenge (resp : Response) : Except GoError (String × String) :=
  if resp.statusCode ≠ 200 ∧ resp.statusCode ≠ 401 then
    .error (statusError resp.statusCode)
  else if (headerValues resp.header "Docker-Distribution-Api-Version").contains "registry/2.0"
      = false then
    .error (.errorsNew "missing or unexpected registry version header")
  else
    match parseChallenge (headerValues resp.header "Www-Authenticate") with
    | none => .error (.errorsNew "missing or unexpected registry authentication header")
    | some rs => .ok rs

/-- client.go 243-253: the request for the token. -/
def Client.tokenRequest (env : Env) (cli : Client) (scope realm service : String) :
    Except GoError Request :=
  match newRequest env "GET" realm with
  | .error e => .error e
  | .ok req =>
    let req := { req with query := req.query ++ [("service", service), ("scope", scope)] }
    .ok (req.setBasicAuth cli.user cli.pass)

/-- client.go 255-273: send the token request and decode the answer. -/
def Client.tokenFetch (env : Env) (req : Request) (tr : List Event) :
    Except GoError String × List Event :=
  match httpDo env req tr with
  | (.error e, tr) => (.error e, tr)
  | (.ok (resp, n), tr) =>
    -- `defer resp.Body.Close()` (line 259) runs when `Token` returns
    (Client.tokenDecode resp, tr ++ [.bodyClose n])

/-- client.go 204-273: what `Token` does with the response to the version
check, after `defer resp.Body.Close()` at line 202. -/
def Client.tokenNegotiate (env : Env) (cli : Client) (scope : String) (resp : Response)
    (tr : List Event) : Except GoError String × List Event :=
  match Client.tokenChallenge resp with
  | .error e => (.error e, tr)
  | .ok (realm, service) =>
    match Client.tokenRequest env cli scope realm service with
    | .error e => (.error e, tr)
    | .ok req => Client.tokenFetch env req tr

/-- Go `(cli *Client) Token(scope)`. -/
def Client.Token (env : Env) (cli : Client) (scope : String) (tr : List Event) :
    Except GoError String × List Event :=
  let tr := tr ++ [.tokenCall scope]
  match env.joinPath cli.registry "/v2/" with
  | .error e => (.error e, tr)
  | .ok endpoint =>
    match httpGet env endpoint tr with
    | (.error e, tr) => (.error e, tr)
    | (.ok (resp, n), tr) =>
      -- `defer resp.Body.Close()` (line 202) runs last, when `Token` returns
      let r := Client.tokenNegotiate env cli scope resp tr
      (r.1, r.2 ++ [.bodyClose n])

/-- client.go 151-176, the first part of `request`: build the request and
attach the authentication, negotiating a token on a cache miss. -/
def Client.requestBuild (env : Env) (cli : Client) (endpoint scope : String) (accept : List String)
    (tr : List Event) : Except GoError Request × Client × List Event :=
  match newRequest env "GET" endpoint with
  | .error e => (.error e, cli, tr)
  | .ok req =>
    let req := req.addAccept accept
    if cli.basicAuth then (.ok (req.setBasicAuth cli.user cli.pass), cli, tr)
    else
      match cli.creds.lookup scope with
      | some cred => (.ok (req.headerAdd "Authorization" ("Bearer " ++ cred.token)), cli, tr)
      | none =>
        match Client.Token env cli scope tr with
        | (.error e, tr) => (.error (.wrap "can not retrieve token: " e), cli, tr)
        | (.ok token, tr) =>
          let cred : credentials := { scope := scope, token := token }
          (.ok (req.headerAdd "Authorization" ("Bearer " ++ cred.token)),
            { cli with creds := credsSet cli.creds scope cred }, tr)

/-- client.go 178-187, the second part of `request`: the outcome once the
transport has answered. -/
def Client.requestFinish (resp : Response) (n : Nat) (tr : List Event) :
    Except GoError String × List Event :=
  if resp.statusCode ≠ 200 then (.error (statusError resp.statusCode), tr)
  else
    -- `defer resp.Body.Close()` (line 185) is registered only here
    match resp.readErr with
    | some e => (.error e, tr ++ [.bodyClose n])
    | none => (.ok resp.body, tr ++ [.bodyClose n])

/-- Go `(cli *Client) request(endpoint, scope, accept)`. -/
def Client.request (env : Env) (cli : Client) (endpoint scope : String) (accept : List String)
    (tr : List Event) : Except GoError String × Client × List Event :=
  match Client.requestBuild env cli endpoint scope accept tr with
  | (.error e, cli, tr) => (.error e, cli, tr)
  | (.ok req, cli, tr) =>
    match httpDo env req tr with
    | (.error e, tr) => (.error e, cli, tr)
    | (.ok (resp, n), tr) =>
      let r := Client.requestFinish resp n tr
      (r.1, cli, r.2)

/-- Go `(cli *Client) Catalog()`. -/
def Client.Catalog (env : Env) (cli : Client) (tr : List Event) :
    Except GoError (List String) × Client × List Event :=
  match env.joinPath cli.registry "v2/_catalog" with
  | .error e => (.error e, cli, tr)
  | .ok catalogEndpoint =>
    match Client.request env cli catalogEndpoint catalogScope [] tr with
    | (.error e, cli, tr) => (.error e, cli, tr)
    | (.ok body, cli, tr) =>
      match unmarshalCatalog body with
      | .error e => (.error e, cli, tr)
      | .ok catalogResponse => (.ok catalogResponse.Repositories, cli, tr)

/-- Go `(cli *Client) Tags(repository)`. -/
def Client.Tags (env : Env) (cli : Client) (repository : String) (tr : List Event) :
    Except GoError (List String) × Client × List Event :=
  match env.joinPath cli.registry ("v2/" ++ repository ++ "/tags/list/") with
  | .error e => (.error e, cli, tr)
  | .ok tagsEndpoint =>
    match Client.request env cli tagsEndpoint repositoryScope [] tr with
    | (.error e, cli, tr) => (.error e, cli, tr)
    | (.ok body, cli, tr) =>
      match unmarshalTags body with
      | .error e => (.error e, cli, tr)
      | .ok tagsResponse => (.ok tagsResponse.Tags, cli, tr)

/-- Go `(cli *Client) Manifest(repository, tag)`; a failure returns `Manifest{}`
next to the error, which `Except` leaves out. -/
def Client.Manifest (env : Env) (cli : Client) (repository tag : String) (tr : List Event) :
    Except GoError Manifest × Client × List Event :=
  match env.joinPath cli.registry ("v2/" ++ repository ++ "/manifests/" ++ tag) with
  | .error e => (.error e, cli, tr)
  | .ok manifestsEndpoint =>
    match Client.request env cli manifestsEndpoint repositoryScope accept tr with
    | (.error e, cli, tr) => (.error e, cli, tr)
    | (.ok body, cli, tr) =>
      match unmarshalManifest body with
      | .error e => (.error e, cli, tr)
      | .ok m =>
        if stringsContains m.MediaType "list" then
          (.ok Manifest.zero, cli, tr ++ [.log ("manifest list in " ++ repository ++ "/" ++ tag)])
        else (.ok m, cli, tr)

/-! ## Vocabulary of the statements -/

/-- The challenge `Bearer realm="<realm>",service="<service>"`. -/
def challengeText (realm service : String) : String :=
  "Bearer realm=\"" ++ realm ++ "\",service=\"" ++ service ++ "\""

/-- The scopes of the calls to `Token` in a trace, in order. -/
def tokenCalls (tr : List Event) : List String :=
  tr.filterMap fun ev => match ev with
    | .tokenCall scope => some scope
    | _ => none

/-- The responses whose body was closed in a trace, by request number. -/
def closed (tr : List Event) : List Nat :=
  tr.filterMap fun ev => match ev with
    | .bodyClose n => some n
    | _ => none

/-- Go `req.Header.Values("Authorization")`. -/
def Request.authorization (r : Request) : List String :=
  (r.header.filter fun kv => kv.1 = "Authorization").map Prod.snd

/-! ## Example registries -/

/-- A registry that answers by URL from a table and refuses every other
connection; its URLs are all well formed. -/
def tableEnv (table : List (String × Response)) : Env where
  joinPath := fun base elem =>
    .ok (base ++ "/" ++ String.mk (elem.data.dropWhile fun c => c == '/'))
  parseURL := fun _ => none
  roundTrip := fun _ req =>
    match table.lookup req.url with
    | some resp => .ok resp
    | none => .error (.lib "connection refused")

/-- The answer of a registry to the version check: 401 with the version
header and the given challenge. -/
def unauthorized (challenge : String) : Response :=
  { statusCode := 401
    header := [("Docker-Distribution-Api-Version", ["registry/2.0"]),
      ("Www-Authenticate", [challenge])]
    body := ""
    readErr := none }

/-- A 200 response with the given body. -/
def okBody (body : String) : Response :=
  { statusCode := 200, header := [], body := body, readErr := none }

/-- A client of `https://registry.example.com` in Bearer mode. -/
def demoClient : Client :=
  New "https://registry.example.com" "user" "secret" ⟨false, 0, false⟩

/-- The challenge of the example registry. -/
def demoChallenge : String :=
  challengeText "https://auth.example.com/token" "registry.example.com"

deriving instance DecidableEq for Except

/-- The URL of the version check of the example registry. -/
def demoV2 : String := "https://registry.example.com/v2/"

/-- The request of the version check of the example registry. -/
def demoV2Request : Request := ⟨"GET", demoV2, [], []⟩

/-- A registry whose API root answers 500 without a version header. -/
def brokenEnv : Env := tableEnv [(demoV2, ⟨500, [], "", none⟩)]

/-- A registry whose API root answers 200 with a version header of another API. -/
def otherVersionEnv : Env :=
  tableEnv [(demoV2, ⟨200, [("Docker-Distribution-Api-Version", ["registry/1.0"])], "", none⟩)]

/-- A registry whose challenge has no service field. -/
def noServiceEnv : Env := tableEnv [(demoV2, unauthorized "Bearer realm=\"r\"")]

/-- A challenge with a `scope` parameter after the service. -/
def scopedChallenge : String :=
  "Bearer realm=\"https://auth.example.com/token\",service=\"registry.example.com\"" ++
    ",scope=\"repository:a:pull\""

/-- A registry that sends `scopedChallenge` and whose token service answers. -/
def scopedEnv : Env :=
  tableEnv [(demoV2, unauthorized scopedChallenge),
    ("https://auth.example.com/token", okBody "\x7b\"token\":\"abc\"\x7d")]

/-- The catalog URL of the example registry. -/
def demoCatalog : String := "https://registry.example.com/v2/_catalog"

/-- The token service of the example registry answering with the token `abc`. -/
def demoAuth : List (String × Response) :=
  [(demoV2, unauthorized demoChallenge),
    ("https://auth.example.com/token", okBody "\x7b\"token\":\"abc\"\x7d")]

/-- The token request of `demoClient` for `scope`. -/
def demoTokenRequest (scope : String) : Request :=
  ⟨"GET", "https://auth.example.com/token",
    [("service", "registry.example.com"), ("scope", scope)],
    [("Authorization", "Basic dXNlcjpzZWNyZXQ=")]⟩

/-- The request of an operation of `demoClient` carrying the token `abc`. -/
def demoRequest (url : String) (acc : List String) : Request :=
  ⟨"GET", url, [], acc.map (fun h => ("Accept", h)) ++ [("Authorization", "Bearer abc")]⟩

/-- The example registry with a catalog that answers 404. -/
def notFoundEnv : Env :=
  tableEnv (demoAuth ++ [(demoCatalog, ⟨404, [], "\x7b\"repositories\":[\"a\"]\x7d", none⟩)])

/-- The example registry with a catalog of two repositories. -/
def catalogEnv : Env :=
  tableEnv (demoAuth ++ [(demoCatalog, okBody "\x7b\"repositories\":[\"a\",\"b/c\"]\x7d")])

/-- A registry that cannot be reached. -/
def downEnv : Env := tableEnv []

/-- The client `demoClient` after it has stored the token `abc` for `scope`. -/
def demoClientWith (scope : String) : Client :=
  { demoClient with creds := [(scope, ⟨scope, "abc"⟩)] }

/-- The tags URL of repository `a` of the example registry. -/
def demoTags : String := "https://registry.example.com/v2/a/tags/list/"

/-- The manifest URL of `a:latest` of the example registry. -/
def demoManifest : String := "https://registry.example.com/v2/a/manifests/latest"

/-- The body of a manifest list. -/
def listBody : String :=
  "\x7b\"schemaVersion\":2," ++
    "\"mediaType\":\"application/vnd.docker.distribution.manifest.list.v2+json\"," ++
    "\"manifests\":[]\x7d"

/-- The body of an image manifest with two layers. -/
def imageBody : String :=
  "\x7b\"schemaVersion\":2," ++
    "\"mediaType\":\"application/vnd.docker.distribution.manifest.v2+json\"," ++
    "\"config\":\x7b\"mediaType\":\"c\",\"size\":7,\"digest\":\"sha256:aa\"\x7d," ++
    "\"layers\":[\x7b\"mediaType\":\"l\",\"size\":32,\"digest\":\"sha256:bb\"\x7d," ++
    "\x7b\"mediaType\":\"l\",\"size\":16,\"digest\":\"sha256:cc\"\x7d]\x7d"

/-- The manifest that `imageBody` decodes to. -/
def imageManifest : Manifest :=
  ⟨2, "application/vnd.docker.distribution.manifest.v2+json", ⟨"c", 7, "sha256:aa"⟩,
    [⟨"l", 32, "sha256:bb"⟩, ⟨"l", 16, "sha256:cc"⟩]⟩

/-- The example registry with the tags of `a` and a manifest list at `a:latest`. -/
def listEnv : Env :=
  tableEnv (demoAuth ++
    [(demoTags, okBody "\x7b\"name\":\"a\",\"tags\":[\"1.0\",\"latest\"]\x7d"),
      (demoManifest, okBody listBody)])

/-- The example registry with an image manifest at `a:latest`. -/
def imageEnv : Env := tableEnv (demoAuth ++ [(demoManifest, okBody imageBody)])

/-- The example registry with a token service that answers `{}`. -/
def emptyTokenEnv : Env :=
  tableEnv [(demoV2, unauthorized demoChallenge),
    ("https://auth.example.com/token", okBody "\x7b\x7d")]

/-- The example registry with a token service that answers with a web page. -/
def htmlTokenEnv : Env :=
  tableEnv [(demoV2, unauthorized demoChallenge),
    ("https://auth.example.com/token", okBody "<html></html>")]

/-- A client of the example registry in Basic mode. -/
def basicClient : Client :=
  New "https://registry.example.com" "user" "secret" ⟨false, 0, true⟩

/-- The JSON object whose one member `a` holds `n` arrays nested in each
other: `n + 1` levels of nesting. -/
def deepBody (n : Nat) : String :=
  String.mk ("\x7b\"a\":".data ++
    (List.replicate n (Char.ofNat 91) ++ (List.replicate n (Char.ofNat 93) ++ [Char.ofNat 125])))

/-- The example registry with a token service whose answer is nested one level
deeper than `encoding/json` accepts. -/
def deepTokenEnv : Env :=
  tableEnv [(demoV2, unauthorized demoChallenge),
    ("https://auth.example.com/token", okBody (deepBody maxNestingDepth))]

/-! ## The pattern matcher -/

theorem dotRun_le_length (s : List Char) : dotRun s ≤ s.length := by
  induction s with
  | nil => simp [dotRun]
  | cons c cs ih =>
    simp only [dotRun, List.length_cons]
    split <;> omega

theorem not_mem_take_dotRun (s : List Char) (n : Nat) (h : n ≤ dotRun s) :
    newline ∉ s.take n := by
  induction s generalizing n with
  | nil => simp
  | cons c cs ih =>
    cases n with
    | zero => simp
    | succ n =>
      simp only [dotRun] at h
      split at h
      · omega
      · rename_i hc
        simp only [List.take_succ_cons, List.mem_cons, not_or]
        exact ⟨fun e => hc e.symm, ih n (by omega)⟩

theorem le_dotRun_append (g t : List Char) (h : newline ∉ g) :
    g.length ≤ dotRun (g ++ t) := by
  induction g with
  | nil => simp
  | cons c cs ih =>
    simp only [List.mem_cons, not_or] at h
    have := ih h.2
    simp only [List.cons_append, dotRun, List.length_cons, List.append_eq]
    rw [if_neg (fun e => h.1 e.symm)]
    omega

theorem reMatchAt_lit_iff (l : List Char) (rest : List ReItem) (s : List Char)
    (r : List (List Char) × List Char) :
    reMatchAt (.lit l :: rest) s = some r ↔ ∃ t, s = l ++ t ∧ reMatchAt rest t = some r := by
  simp only [reMatchAt, List.isPrefixOf_iff_prefix]
  constructor
  · intro h
    split at h
    · rename_i hp
      obtain ⟨t, rfl⟩ := hp
      exact ⟨t, rfl, by simpa using h⟩
    · cases h
  · rintro ⟨t, rfl, h⟩
    rw [if_pos (List.prefix_append l t)]
    simpa using h

theorem reMatchAt_group_sound (rest : List ReItem) (s : List Char)
    (r : List (List Char) × List Char) (h : reMatchAt (.group :: rest) s = some r) :
    ∃ g t caps, g ≠ [] ∧ newline ∉ g ∧ s = g ++ t ∧ reMatchAt rest t = some (caps, r.2) ∧
      r.1 = g :: caps := by
  simp only [reMatchAt] at h
  obtain ⟨k, hk, hf⟩ := List.exists_of_findSome?_eq_some h
  simp only [List.mem_reverse, List.mem_range] at hk
  cases hm : reMatchAt rest (List.drop (k + 1) s) with
  | none => simp [hm] at hf
  | some q =>
    simp only [hm, Option.map_some', Option.some.injEq] at hf
    have hlen := dotRun_le_length s
    refine ⟨s.take (k + 1), s.drop (k + 1), q.1, ?_, ?_, ?_, ?_, ?_⟩
    · intro e
      have := congrArg List.length e
      simp only [List.length_take, List.length_nil] at this
      omega
    · exact not_mem_take_dotRun s (k + 1) (by omega)
    · exact (List.take_append_drop (k + 1) s).symm
    · rw [hm, ← hf]
    · rw [← hf]

theorem reMatchAt_group_complete (rest : List ReItem) (g t : List Char) (hg : g ≠ [])
    (hn : newline ∉ g) (h : (reMatchAt rest t).isSome = true) :
    (reMatchAt (.group :: rest) (g ++ t)).isSome = true := by
  simp only [reMatchAt, List.findSome?_isSome_iff, List.mem_reverse, List.mem_range]
  have hpos : 0 < g.length := List.length_pos.mpr hg
  refine ⟨g.length - 1, ?_, ?_⟩
  · have := le_dotRun_append g t hn
    omega
  · have e : g.length - 1 + 1 = g.length := by omega
    rw [e, List.drop_left]
    simpa using h

theorem reFind_of_match (items : List ReItem) (s : List Char)
    (r : List (List Char) × List Char) (h : reMatchAt items s = some r) :
    reFind items s = some (s.take (s.length - r.2.length) :: r.1) := by
  cases s with
  | nil => simp [reFind, h]
  | cons c cs => simp [reFind, h]

theorem reFind_sound (items : List ReItem) (s : List Char) (ms : List (List Char))
    (h : reFind items s = some ms) :
    ∃ pre t r w, s = pre ++ t ∧ reMatchAt items t = some r ∧ ms = w :: r.1 := by
  induction s with
  | nil =>
    simp only [reFind] at h
    cases hm : reMatchAt items [] with
    | none => simp [hm] at h
    | some r =>
      simp only [hm, Option.map_some', Option.some.injEq] at h
      exact ⟨[], [], r, [], rfl, hm, h.symm⟩
  | cons c cs ih =>
    simp only [reFind] at h
    split at h
    · rename_i r hm
      simp only [Option.some.injEq] at h
      exact ⟨[], c :: cs, r, _, rfl, hm, h.symm⟩
    · obtain ⟨pre, t, r, w, e, hm, hms⟩ := ih h
      exact ⟨c :: pre, t, r, w, by simp [e], hm, hms⟩

theorem reFind_complete (items : List ReItem) (pre t : List Char)
    (h : (reMatchAt items t).isSome = true) : (reFind items (pre ++ t)).isSome = true := by
  induction pre with
  | nil =>
    obtain ⟨r, hr⟩ := Option.isSome_iff_exists.mp h
    simp [reFind_of_match items t r hr]
  | cons c cs ih =>
    simp only [List.cons_append, reFind]
    split
    · rfl
    · exact ih

theorem challenge_sound (s : List Char) (r : List (List Char) × List Char)
    (h : reMatchAt challengeRe s = some r) :
    ∃ g1 g2, g1 ≠ [] ∧ g2 ≠ [] ∧ newline ∉ g1 ∧ newline ∉ g2 ∧
      s = "Bearer realm=\"".data ++ (g1 ++ ("\",service=\"".data ++ (g2 ++ (dquote :: r.2)))) ∧
      r.1 = [g1, g2] := by
  unfold challengeRe at h
  obtain ⟨t1, rfl, h1⟩ := (reMatchAt_lit_iff _ _ _ _).mp h
  obtain ⟨g1, t2, caps1, hg1, hn1, rfl, h2, hr1⟩ := reMatchAt_group_sound _ _ _ h1
  obtain ⟨t3, rfl, h3⟩ := (reMatchAt_lit_iff _ _ _ _).mp h2
  obtain ⟨g2, t4, caps2, hg2, hn2, rfl, h4, hr2⟩ := reMatchAt_group_sound _ _ _ h3
  obtain ⟨t5, rfl, h5⟩ := (reMatchAt_lit_iff _ _ _ _).mp h4
  simp only [reMatchAt, Option.some.injEq, Prod.mk.injEq] at h5
  obtain ⟨e1, e2⟩ := h5
  simp only at hr2
  subst e1 e2 hr2
  exact ⟨g1, g2, hg1, hg2, hn1, hn2, rfl, hr1⟩

theorem challenge_complete (g1 g2 post : List Char) (hg1 : g1 ≠ []) (hg2 : g2 ≠ [])
    (hn1 : newline ∉ g1) (hn2 : newline ∉ g2) :
    (reMatchAt challengeRe
      ("Bearer realm=\"".data ++ (g1 ++ ("\",service=\"".data ++ (g2 ++ (dquote :: post)))))).isSome
      = true := by
  unfold challengeRe
  have h5 : (reMatchAt [.lit "\"".data] (dquote :: post)).isSome = true := by
    have : reMatchAt [.lit "\"".data] ("\"".data ++ post) = some ([], post) :=
      (reMatchAt_lit_iff _ _ _ _).mpr ⟨post, rfl, rfl⟩
    have e : "\"".data ++ post = dquote :: post := rfl
    rw [e] at this
    simp [this]
  have h4 := reMatchAt_group_complete _ g2 _ hg2 hn2 h5
  obtain ⟨r4, hr4⟩ := Option.isSome_iff_exists.mp h4
  have h3 : reMatchAt (.lit "\",service=\"".data :: [.group, .lit "\"".data])
      ("\",service=\"".data ++ (g2 ++ (dquote :: post))) = some r4 :=
    (reMatchAt_lit_iff _ _ _ _).mpr ⟨_, rfl, hr4⟩
  have h2 := reMatchAt_group_complete _ g1 _ hg1 hn1 (by rw [h3]; rfl)
  obtain ⟨r2, hr2⟩ := Option.isSome_iff_exists.mp h2
  have h1 := (reMatchAt_lit_iff "Bearer realm=\"".data _ _ r2).mpr ⟨_, rfl, hr2⟩
  rw [h1]; rfl

theorem append_cons_cancel {c : Char} {a a1 b b1 : List Char} (ha : c ∉ a) (ha1 : c ∉ a1)
    (h : a ++ c :: b = a1 ++ c :: b1) : a = a1 ∧ b = b1 := by
  induction a generalizing a1 with
  | nil =>
    cases a1 with
    | nil => simpa using h
    | cons x xs =>
      simp only [List.nil_append, List.cons_append, List.cons.injEq] at h
      simp only [List.mem_cons, not_or] at ha1
      exact absurd h.1 ha1.1
  | cons y ys ih =>
    cases a1 with
    | nil =>
      simp only [List.nil_append, List.cons_append, List.cons.injEq] at h
      simp only [List.mem_cons, not_or] at ha
      exact absurd h.1.symm ha.1
    | cons x xs =>
      simp only [List.cons_append, List.cons.injEq] at h
      simp only [List.mem_cons, not_or] at ha ha1
      obtain ⟨e1, e2⟩ := ih ha.2 ha1.2 h.2
      exact ⟨by rw [h.1, e1], e2⟩

/-- With no quote inside the realm and the service, the decomposition of a
challenge is unique. -/
theorem challenge_unique (r s g1 g2 rem : List Char) (hr : dquote ∉ r) (hs : dquote ∉ s)
    (h : "Bearer realm=\"".data ++ (r ++ ("\",service=\"".data ++ (s ++ [dquote]))) =
      "Bearer realm=\"".data ++ (g1 ++ ("\",service=\"".data ++ (g2 ++ (dquote :: rem))))) :
    g1 = r ∧ g2 = s ∧ rem = [] := by
  have hc := congrArg (List.count dquote) h
  have c1 : List.count dquote "Bearer realm=\"".data = 1 := by decide
  have c2 : List.count dquote "\",service=\"".data = 2 := by decide
  simp only [List.count_append, c1, c2, List.count_eq_zero.mpr hr, List.count_eq_zero.mpr hs,
    List.count_cons_self, List.count_nil] at hc
  have z1 : List.count dquote g1 = 0 := by omega
  have z2 : List.count dquote g2 = 0 := by omega
  have hg1 : dquote ∉ g1 := List.count_eq_zero.mp z1
  have hg2 : dquote ∉ g2 := List.count_eq_zero.mp z2
  have h1 := List.append_cancel_left h
  have e2 : "\",service=\"".data = dquote :: ",service=".data ++ [dquote] := by decide
  rw [e2] at h1
  simp only [List.cons_append, List.append_assoc] at h1
  obtain ⟨e1, h2⟩ := append_cons_cancel hr hg1 h1
  simp only [List.cons_append, List.nil_append, List.cons.injEq, true_and] at h2
  obtain ⟨e3, e4⟩ := append_cons_cancel hs hg2 h2
  exact ⟨e1.symm, e3.symm, e4.symm⟩

theorem findStringSubmatch_challengeText (realm service : String)
    (hr : realm ≠ "") (hs : service ≠ "")
    (hrq : dquote ∉ realm.data) (hsq : dquote ∉ service.data)
    (hrn : newline ∉ realm.data) (hsn : newline ∉ service.data) :
    findStringSubmatch challengeRe (challengeText realm service) =
      [challengeText realm service, realm, service] := by
  have hd : (challengeText realm service).data =
      "Bearer realm=\"".data ++ (realm.data ++ ("\",service=\"".data ++ (service.data ++ [dquote]))) := by
    simp only [challengeText, String.data_append, List.append_assoc]
    rfl
  have hr1 : realm.data ≠ [] := fun e => hr (String.ext e)
  have hs1 : service.data ≠ [] := fun e => hs (String.ext e)
  have hc := challenge_complete realm.data service.data [] hr1 hs1 hrn hsn
  obtain ⟨q, hq⟩ := Option.isSome_iff_exists.mp hc
  obtain ⟨g1, g2, -, -, -, -, hdec, hcaps⟩ := challenge_sound _ _ hq
  obtain ⟨e1, e2, e3⟩ := challenge_unique _ _ _ _ _ hrq hsq hdec
  subst e1 e2
  have hf := reFind_of_match _ _ _ hq
  rw [← hd] at hf
  simp only [findStringSubmatch, hf, hcaps, e3, List.length_nil, Nat.sub_zero, List.take_length,
    List.map_cons, List.map_nil]

/-! ## Traces -/

@[simp] theorem sent_append (a b : List Event) : sent (a ++ b) = sent a ++ sent b := by
  simp [sent, List.filterMap_append]

@[simp] theorem tokenCalls_append (a b : List Event) :
    tokenCalls (a ++ b) = tokenCalls a ++ tokenCalls b := by
  simp [tokenCalls, List.filterMap_append]

@[simp] theorem closed_append (a b : List Event) : closed (a ++ b) = closed a ++ closed b := by
  simp [closed, List.filterMap_append]

@[simp] theorem sent_nil : sent [] = [] := rfl
@[simp] theorem tokenCalls_nil : tokenCalls [] = [] := rfl
@[simp] theorem closed_nil : closed [] = [] := rfl

@[simp] theorem sent_cons_send (r : Request) (tr : List Event) :
    sent (.send r :: tr) = r :: sent tr := rfl
@[simp] theorem sent_cons_tokenCall (s : String) (tr : List Event) :
    sent (.tokenCall s :: tr) = sent tr := rfl
@[simp] theorem sent_cons_bodyClose (n : Nat) (tr : List Event) :
    sent (.bodyClose n :: tr) = sent tr := rfl
@[simp] theorem sent_cons_log (m : String) (tr : List Event) :
    sent (.log m :: tr) = sent tr := rfl

@[simp] theorem tokenCalls_cons_send (r : Request) (tr : List Event) :
    tokenCalls (.send r :: tr) = tokenCalls tr := rfl
@[simp] theorem tokenCalls_cons_tokenCall (s : String) (tr : List Event) :
    tokenCalls (.tokenCall s :: tr) = s :: tokenCalls tr := rfl
@[simp] theorem tokenCalls_cons_bodyClose (n : Nat) (tr : List Event) :
    tokenCalls (.bodyClose n :: tr) = tokenCalls tr := rfl
@[simp] theorem tokenCalls_cons_log (m : String) (tr : List Event) :
    tokenCalls (.log m :: tr) = tokenCalls tr := rfl

@[simp] theorem closed_cons_send (r : Request) (tr : List Event) :
    closed (.send r :: tr) = closed tr := rfl
@[simp] theorem closed_cons_tokenCall (s : String) (tr : List Event) :
    closed (.tokenCall s :: tr) = closed tr := rfl
@[simp] theorem closed_cons_bodyClose (n : Nat) (tr : List Event) :
    closed (.bodyClose n :: tr) = n :: closed tr := rfl
@[simp] theorem closed_cons_log (m : String) (tr : List Event) :
    closed (.log m :: tr) = closed tr := rfl

/-! ## `Token` -/

theorem httpDo_ok (env : Env) (req : Request) (tr : List Event) (resp : Response)
    (h : env.roundTrip (sent tr) req = .ok resp) :
    httpDo env req tr = (.ok (resp, (sent tr).length), tr ++ [.send req]) := by
  simp [httpDo, h]

theorem httpDo_error (env : Env) (req : Request) (tr : List Event) (e : GoError)
    (h : env.roundTrip (sent tr) req = .error e) :
    httpDo env req tr = (.error e, tr ++ [.send req]) := by
  simp [httpDo, h]

theorem httpDo_trace (env : Env) (req : Request) (tr : List Event) :
    (httpDo env req tr).2 = tr ++ [.send req] := by
  unfold httpDo
  split <;> rfl

/-- The function `Token` once the version check is answered. -/
theorem Token_of_version_response (env : Env) (cli : Client) (scope : String)
    (tr : List Event) (ep : String) (resp : Response)
    (hj : env.joinPath cli.registry "/v2/" = .ok ep) (hp : env.parseURL ep = none)
    (hr : env.roundTrip (sent tr) ⟨"GET", ep, [], []⟩ = .ok resp) :
    Client.Token env cli scope tr =
      ((Client.tokenNegotiate env cli scope resp
          (tr ++ [.tokenCall scope, .send ⟨"GET", ep, [], []⟩])).1,
        (Client.tokenNegotiate env cli scope resp
          (tr ++ [.tokenCall scope, .send ⟨"GET", ep, [], []⟩])).2 ++
          [.bodyClose (sent tr).length]) := by
  have hd := httpDo_ok env ⟨"GET", ep, [], []⟩ (tr ++ [.tokenCall scope]) resp (by simpa using hr)
  simp only [Client.Token, hj, httpGet, newRequest, hp, hd]
  simp

theorem tokenNegotiate_of_challenge_error (env : Env) (cli : Client) (scope : String)
    (resp : Response) (tr : List Event) (e : GoError)
    (h : Client.tokenChallenge resp = .error e) :
    Client.tokenNegotiate env cli scope resp tr = (.error e, tr) := by
  simp [Client.tokenNegotiate, h]

theorem tokenChallenge_status (resp : Response)
    (h : resp.statusCode ≠ 200 ∧ resp.statusCode ≠ 401) :
    Client.tokenChallenge resp = .error (statusError resp.statusCode) := by
  simp [Client.tokenChallenge, h]

theorem tokenChallenge_version (resp : Response)
    (hs : resp.statusCode = 200 ∨ resp.statusCode = 401)
    (hv : "registry/2.0" ∉ headerValues resp.header "Docker-Distribution-Api-Version") :
    Client.tokenChallenge resp =
      .error (.errorsNew "missing or unexpected registry version header") := by
  have h1 : ¬ (resp.statusCode ≠ 200 ∧ resp.statusCode ≠ 401) := by omega
  simp [Client.tokenChallenge, h1, hv]

theorem tokenChallenge_parse (resp : Response)
    (hs : resp.statusCode = 200 ∨ resp.statusCode = 401)
    (hv : "registry/2.0" ∈ headerValues resp.header "Docker-Distribution-Api-Version") :
    Client.tokenChallenge resp =
      match parseChallenge (headerValues resp.header "Www-Authenticate") with
      | none => .error (.errorsNew "missing or unexpected registry authentication header")
      | some rs => .ok rs := by
  have h1 : ¬ (resp.statusCode ≠ 200 ∧ resp.statusCode ≠ 401) := by omega
  simp [Client.tokenChallenge, h1, hv]

/-! ## The challenge -/

theorem findStringSubmatch_length (v : String) :
    (findStringSubmatch challengeRe v).length = 3 ∨ findStringSubmatch challengeRe v = [] := by
  unfold findStringSubmatch
  cases h : reFind challengeRe v.data with
  | none => right; rfl
  | some ms =>
    left
    obtain ⟨pre, t, r, w, -, hm, hms⟩ := reFind_sound _ _ _ h
    obtain ⟨g1, g2, -, -, -, -, -, hc⟩ := challenge_sound _ _ hm
    simp [hms, hc]

/-- The values the pattern matches: those that contain a challenge somewhere. -/
theorem findStringSubmatch_iff (v : String) :
    (findStringSubmatch challengeRe v).length = 3 ↔
      ∃ pre realm service post : String, realm ≠ "" ∧ service ≠ "" ∧
        newline ∉ realm.data ∧ newline ∉ service.data ∧
        v = pre ++ challengeText realm service ++ post := by
  constructor
  · intro h
    unfold findStringSubmatch at h
    cases hf : reFind challengeRe v.data with
    | none => simp [hf] at h
    | some ms =>
      obtain ⟨pre, t, r, w, hv, hm, -⟩ := reFind_sound _ _ _ hf
      obtain ⟨g1, g2, hg1, hg2, hn1, hn2, ht, -⟩ := challenge_sound _ _ hm
      refine ⟨⟨pre⟩, ⟨g1⟩, ⟨g2⟩, ⟨r.2⟩, ?_, ?_, hn1, hn2, ?_⟩
      · intro e; exact hg1 (congrArg String.data e)
      · intro e; exact hg2 (congrArg String.data e)
      · apply String.ext
        simp only [challengeText, String.data_append, hv, ht, List.append_assoc]
        rfl
  · rintro ⟨pre, realm, service, post, hr, hs, hn1, hn2, rfl⟩
    have hr1 : realm.data ≠ [] := fun e => hr (String.ext e)
    have hs1 : service.data ≠ [] := fun e => hs (String.ext e)
    have hc := challenge_complete realm.data service.data post.data hr1 hs1 hn1 hn2
    have hd : (pre ++ challengeText realm service ++ post).data =
        pre.data ++ ("Bearer realm=\"".data ++ (realm.data ++
          ("\",service=\"".data ++ (service.data ++ (dquote :: post.data))))) := by
      simp only [challengeText, String.data_append, List.append_assoc]
      rfl
    have hf := reFind_complete challengeRe pre.data _ hc
    rw [← hd] at hf
    rcases findStringSubmatch_length (pre ++ challengeText realm service ++ post) with h | h
    · exact h
    · exfalso
      unfold findStringSubmatch at h
      obtain ⟨ms, hms⟩ := Option.isSome_iff_exists.mp hf
      rw [hms] at h
      have := congrArg List.length h
      obtain ⟨pre1, t, r, w, -, hm, hms1⟩ := reFind_sound _ _ _ hms
      simp [hms1] at this

theorem findStringSubmatch_no_service (v : String)
    (h : ¬ ",service=\"".data <:+: v.data) : findStringSubmatch challengeRe v = [] := by
  rcases findStringSubmatch_length v with h3 | h0
  · exfalso
    obtain ⟨pre, realm, service, post, -, -, -, -, rfl⟩ := (findStringSubmatch_iff v).mp h3
    apply h
    refine ⟨pre.data ++ "Bearer realm=\"".data ++ realm.data ++ [dquote],
      service.data ++ [dquote] ++ post.data, ?_⟩
    simp only [challengeText, String.data_append, List.append_assoc]
    rfl
  · exact h0

theorem parseChallenge_none (vs : List String)
    (h : ∀ v ∈ vs, (findStringSubmatch challengeRe v).length ≠ 3) : parseChallenge vs = none := by
  induction vs with
  | nil => rfl
  | cons v vs ih =>
    simp only [parseChallenge]
    rw [if_neg (h v (List.mem_cons_self v vs))]
    exact ih fun w hw => h w (List.mem_cons_of_mem v hw)

theorem parseChallenge_some (vs : List String) (rs : String × String)
    (h : parseChallenge vs = some rs) :
    ∃ v ∈ vs, (findStringSubmatch challengeRe v).length = 3 := by
  induction vs with
  | nil => simp [parseChallenge] at h
  | cons v vs ih =>
    simp only [parseChallenge] at h
    split at h
    · rename_i h3
      exact ⟨v, List.mem_cons_self v vs, h3⟩
    · obtain ⟨w, hw, h3⟩ := ih h
      exact ⟨w, List.mem_cons_of_mem v hw, h3⟩

/-- The function `Token` when no value of `Www-Authenticate` matches the pattern. -/
theorem Token_no_challenge (env : Env) (cli : Client) (scope : String)
    (tr : List Event) (ep : String) (resp : Response)
    (hj : env.joinPath cli.registry "/v2/" = .ok ep) (hp : env.parseURL ep = none)
    (hr : env.roundTrip (sent tr) ⟨"GET", ep, [], []⟩ = .ok resp)
    (hs : resp.statusCode = 200 ∨ resp.statusCode = 401)
    (hv : "registry/2.0" ∈ headerValues resp.header "Docker-Distribution-Api-Version")
    (hc : ∀ v ∈ headerValues resp.header "Www-Authenticate",
      (findStringSubmatch challengeRe v).length ≠ 3) :
    Client.Token env cli scope tr =
      (.error (.errorsNew "missing or unexpected registry authentication header"),
        tr ++ [.tokenCall scope, .send ⟨"GET", ep, [], []⟩, .bodyClose (sent tr).length]) := by
  have h1 : Client.tokenChallenge resp =
      .error (.errorsNew "missing or unexpected registry authentication header") := by
    rw [tokenChallenge_parse resp hs hv, parseChallenge_none _ hc]
  rw [Token_of_version_response env cli scope tr ep resp hj hp hr,
    tokenNegotiate_of_challenge_error env cli scope resp _ _ h1]
  simp

/-! ## Claims on the token negotiation -/

/-- C3 as stated fails: a version check answered with status 500 and no version
header makes `Token` fail with the status error, not with "missing or
unexpected registry version header". -/
theorem version_check_status_first :
    brokenEnv.roundTrip [] demoV2Request = .ok ⟨500, [], "", none⟩ ∧
    "registry/2.0" ∉ headerValues (Response.mk 500 [] "" none).header
      "Docker-Distribution-Api-Version" ∧
    Client.Token brokenEnv demoClient catalogScope [] =
      (.error (.errorsNew "status code: 500"),
        [.tokenCall catalogScope, .send demoV2Request, .bodyClose 0]) ∧
    (Client.Token brokenEnv demoClient catalogScope []).1 ≠
      .error (.errorsNew "missing or unexpected registry version header") := by
  decide

/-- C3 (amended): when the response to the version check carries no
`Docker-Distribution-Api-Version` value `registry/2.0`, `Token` fails and the
version check is the only request it has sent (no token request); it fails with
"missing or unexpected registry version header" when the status is 200 or 401,
and with the status error for every other status. -/
theorem token_fails_without_version_header (env : Env) (cli : Client) (scope : String)
    (tr : List Event) (ep : String) (resp : Response)
    (hj : env.joinPath cli.registry "/v2/" = .ok ep) (hp : env.parseURL ep = none)
    (hr : env.roundTrip (sent tr) ⟨"GET", ep, [], []⟩ = .ok resp)
    (hv : "registry/2.0" ∉ headerValues resp.header "Docker-Distribution-Api-Version") :
    (resp.statusCode = 200 ∨ resp.statusCode = 401 →
      Client.Token env cli scope tr =
        (.error (.errorsNew "missing or unexpected registry version header"),
          tr ++ [.tokenCall scope, .send ⟨"GET", ep, [], []⟩, .bodyClose (sent tr).length])) ∧
    (resp.statusCode ≠ 200 ∧ resp.statusCode ≠ 401 →
      Client.Token env cli scope tr =
        (.error (statusError resp.statusCode),
          tr ++ [.tokenCall scope, .send ⟨"GET", ep, [], []⟩, .bodyClose (sent tr).length])) := by
  constructor
  · intro hs
    rw [Token_of_version_response env cli scope tr ep resp hj hp hr,
      tokenNegotiate_of_challenge_error env cli scope resp _ _ (tokenChallenge_version resp hs hv)]
    simp
  · intro hs
    rw [Token_of_version_response env cli scope tr ep resp hj hp hr,
      tokenNegotiate_of_challenge_error env cli scope resp _ _ (tokenChallenge_status resp hs)]
    simp

/-- C3, an instance: a registry answering the version check with 200 and the
version header `registry/1.0`. -/
theorem token_fails_without_version_header_witness :
    Client.Token otherVersionEnv demoClient repositoryScope [] =
      (.error (.errorsNew "missing or unexpected registry version header"),
        [.tokenCall repositoryScope, .send demoV2Request, .bodyClose 0]) :=
  (token_fails_without_version_header otherVersionEnv demoClient repositoryScope [] demoV2
    ⟨200, [("Docker-Distribution-Api-Version", ["registry/1.0"])], "", none⟩
    (by decide) (by decide) (by decide) (by decide)).1 (by decide)

/-- C4: for a non-empty realm and service without double quote and line feed,
the pattern of `Token` applied to `Bearer realm="<realm>",service="<service>"`
extracts exactly that realm and that service; and when no `Www-Authenticate`
value has a quoted service field (`,service="`), `Token` fails with "missing or
unexpected registry authentication header". -/
theorem challenge_extracts_realm_and_service :
    (∀ realm service : String, realm ≠ "" → service ≠ "" →
      dquote ∉ realm.data → dquote ∉ service.data →
      newline ∉ realm.data → newline ∉ service.data →
      findStringSubmatch challengeRe (challengeText realm service) =
        [challengeText realm service, realm, service] ∧
      parseChallenge [challengeText realm service] = some (realm, service) ∧
      ∀ resp : Response, (resp.statusCode = 200 ∨ resp.statusCode = 401) →
        "registry/2.0" ∈ headerValues resp.header "Docker-Distribution-Api-Version" →
        headerValues resp.header "Www-Authenticate" = [challengeText realm service] →
        Client.tokenChallenge resp = .ok (realm, service)) ∧
    (∀ (env : Env) (cli : Client) (scope : String) (tr : List Event) (ep : String)
      (resp : Response),
      env.joinPath cli.registry "/v2/" = .ok ep → env.parseURL ep = none →
      env.roundTrip (sent tr) ⟨"GET", ep, [], []⟩ = .ok resp →
      (resp.statusCode = 200 ∨ resp.statusCode = 401) →
      "registry/2.0" ∈ headerValues resp.header "Docker-Distribution-Api-Version" →
      (∀ v ∈ headerValues resp.header "Www-Authenticate", ¬ ",service=\"".data <:+: v.data) →
      Client.Token env cli scope tr =
        (.error (.errorsNew "missing or unexpected registry authentication header"),
          tr ++ [.tokenCall scope, .send ⟨"GET", ep, [], []⟩,
            .bodyClose (sent tr).length])) := by
  constructor
  · intro realm service hr hs hrq hsq hrn hsn
    have hf := findStringSubmatch_challengeText realm service hr hs hrq hsq hrn hsn
    have hpc : parseChallenge [challengeText realm service] = some (realm, service) := by
      simp [parseChallenge, hf]
    refine ⟨hf, hpc, ?_⟩
    intro resp hst hv ha
    rw [tokenChallenge_parse resp hst hv, ha, hpc]
  · intro env cli scope tr ep resp hj hp hr hs hv hc
    refine Token_no_challenge env cli scope tr ep resp hj hp hr hs hv ?_
    intro v hvm
    rw [findStringSubmatch_no_service v (hc v hvm)]
    decide

/-- C4, the instances of the spec: the realm `https://auth.example.com/token`
with the service `registry.example.com`, and the challenge `Bearer realm="r"`. -/
theorem challenge_extracts_realm_and_service_witness :
    parseChallenge
        ["Bearer realm=\"https://auth.example.com/token\",service=\"registry.example.com\""] =
      some ("https://auth.example.com/token", "registry.example.com") ∧
    Client.Token noServiceEnv demoClient catalogScope [] =
      (.error (.errorsNew "missing or unexpected registry authentication header"),
        [.tokenCall catalogScope, .send demoV2Request, .bodyClose 0]) :=
  ⟨(challenge_extracts_realm_and_service.1 "https://auth.example.com/token"
      "registry.example.com" (by decide) (by decide) (by decide) (by decide) (by decide)
      (by decide)).2.1,
    challenge_extracts_realm_and_service.2 noServiceEnv demoClient catalogScope [] demoV2
      (unauthorized "Bearer realm=\"r\"") (by decide) (by decide) (by decide) (by decide)
      (by decide) (by decide)⟩

/-- C5 as stated fails: text before `Bearer`, a `scope` parameter after the
service and a quote inside a value do not prevent the match, and `Token`
succeeds on a challenge with a `scope` parameter. -/
theorem challenge_not_exact :
    parseChallenge ["x-auth Bearer realm=\"r\",service=\"s\""] = some ("r", "s") ∧
    parseChallenge ["Bearer realm=\"r\",service=\"s\",scope=\"x\""] =
      some ("r", "s\",scope=\"x") ∧
    parseChallenge ["Bearer realm=\"a\"b\",service=\"s\""] = some ("a\"b", "s") ∧
    (Client.Token scopedEnv demoClient repositoryScope []).1 = .ok "abc" := by
  decide

/-- C5 (amended): the pattern of `Token` matches a `Www-Authenticate` value
exactly when the value contains, anywhere, a run
`Bearer realm="<realm>",service="<service>"` whose realm and service are
non-empty and free of line feeds; and when no value matches, `Token` fails
with "missing or unexpected registry authentication header". -/
theorem challenge_accepted_iff :
    (∀ v : String, (findStringSubmatch challengeRe v).length = 3 ↔
      ∃ pre realm service post : String, realm ≠ "" ∧ service ≠ "" ∧
        newline ∉ realm.data ∧ newline ∉ service.data ∧
        v = pre ++ challengeText realm service ++ post) ∧
    (∀ (env : Env) (cli : Client) (scope : String) (tr : List Event) (ep : String)
      (resp : Response),
      env.joinPath cli.registry "/v2/" = .ok ep → env.parseURL ep = none →
      env.roundTrip (sent tr) ⟨"GET", ep, [], []⟩ = .ok resp →
      (resp.statusCode = 200 ∨ resp.statusCode = 401) →
      "registry/2.0" ∈ headerValues resp.header "Docker-Distribution-Api-Version" →
      (∀ v ∈ headerValues resp.header "Www-Authenticate",
        (findStringSubmatch challengeRe v).length ≠ 3) →
      Client.Token env cli scope tr =
        (.error (.errorsNew "missing or unexpected registry authentication header"),
          tr ++ [.tokenCall scope, .send ⟨"GET", ep, [], []⟩,
            .bodyClose (sent tr).length])) :=
  ⟨findStringSubmatch_iff, Token_no_challenge⟩

/-- C5, an instance: a challenge inside other text is matched, and a registry
that sends `Basic realm="r"` makes `Token` fail. -/
theorem challenge_accepted_iff_witness :
    (findStringSubmatch challengeRe
      ("x-auth " ++ challengeText "r" "s" ++ ",scope=\"x\"")).length = 3 ∧
    Client.Token (tableEnv [(demoV2, unauthorized "Basic realm=\"r\"")]) demoClient
        catalogScope [] =
      (.error (.errorsNew "missing or unexpected registry authentication header"),
        [.tokenCall catalogScope, .send demoV2Request, .bodyClose 0]) :=
  ⟨(challenge_accepted_iff.1 _).mpr
      ⟨"x-auth ", "r", "s", ",scope=\"x\"", by decide, by decide, by decide, by decide, rfl⟩,
    challenge_accepted_iff.2 (tableEnv [(demoV2, unauthorized "Basic realm=\"r\"")]) demoClient
      catalogScope [] demoV2 (unauthorized "Basic realm=\"r\"") (by decide) (by decide)
      (by decide) (by decide) (by decide) (by decide)⟩

/-! ## `request` -/

theorem request_of_build_error (env : Env) (cli : Client) (ep scope : String)
    (acc : List String) (tr : List Event) (e : GoError) (cli1 : Client) (tr1 : List Event)
    (hb : Client.requestBuild env cli ep scope acc tr = (.error e, cli1, tr1)) :
    Client.request env cli ep scope acc tr = (.error e, cli1, tr1) := by
  simp [Client.request, hb]

theorem request_of_transport_error (env : Env) (cli : Client) (ep scope : String)
    (acc : List String) (tr : List Event) (req : Request) (cli1 : Client) (tr1 : List Event)
    (e : GoError)
    (hb : Client.requestBuild env cli ep scope acc tr = (.ok req, cli1, tr1))
    (hr : env.roundTrip (sent tr1) req = .error e) :
    Client.request env cli ep scope acc tr = (.error e, cli1, tr1 ++ [.send req]) := by
  simp [Client.request, hb, httpDo_error env req tr1 e hr]

theorem request_of_response (env : Env) (cli : Client) (ep scope : String)
    (acc : List String) (tr : List Event) (req : Request) (cli1 : Client) (tr1 : List Event)
    (resp : Response)
    (hb : Client.requestBuild env cli ep scope acc tr = (.ok req, cli1, tr1))
    (hr : env.roundTrip (sent tr1) req = .ok resp) :
    Client.request env cli ep scope acc tr =
      ((Client.requestFinish resp (sent tr1).length (tr1 ++ [.send req])).1, cli1,
        (Client.requestFinish resp (sent tr1).length (tr1 ++ [.send req])).2) := by
  simp [Client.request, hb, httpDo_ok env req tr1 resp hr]

theorem request_of_status (env : Env) (cli : Client) (ep scope : String)
    (acc : List String) (tr : List Event) (req : Request) (cli1 : Client) (tr1 : List Event)
    (resp : Response)
    (hb : Client.requestBuild env cli ep scope acc tr = (.ok req, cli1, tr1))
    (hr : env.roundTrip (sent tr1) req = .ok resp) (hs : resp.statusCode ≠ 200) :
    Client.request env cli ep scope acc tr =
      (.error (statusError resp.statusCode), cli1, tr1 ++ [.send req]) := by
  rw [request_of_response env cli ep scope acc tr req cli1 tr1 resp hb hr]
  simp [Client.requestFinish, hs]

theorem request_of_read_error (env : Env) (cli : Client) (ep scope : String)
    (acc : List String) (tr : List Event) (req : Request) (cli1 : Client) (tr1 : List Event)
    (resp : Response) (e : GoError)
    (hb : Client.requestBuild env cli ep scope acc tr = (.ok req, cli1, tr1))
    (hr : env.roundTrip (sent tr1) req = .ok resp) (hs : resp.statusCode = 200)
    (he : resp.readErr = some e) :
    Client.request env cli ep scope acc tr =
      (.error e, cli1, tr1 ++ [.send req, .bodyClose (sent tr1).length]) := by
  rw [request_of_response env cli ep scope acc tr req cli1 tr1 resp hb hr]
  simp [Client.requestFinish, hs, he]

theorem request_of_body (env : Env) (cli : Client) (ep scope : String)
    (acc : List String) (tr : List Event) (req : Request) (cli1 : Client) (tr1 : List Event)
    (resp : Response)
    (hb : Client.requestBuild env cli ep scope acc tr = (.ok req, cli1, tr1))
    (hr : env.roundTrip (sent tr1) req = .ok resp) (hs : resp.statusCode = 200)
    (he : resp.readErr = none) :
    Client.request env cli ep scope acc tr =
      (.ok resp.body, cli1, tr1 ++ [.send req, .bodyClose (sent tr1).length]) := by
  rw [request_of_response env cli ep scope acc tr req cli1 tr1 resp hb hr]
  simp [Client.requestFinish, hs, he]

theorem requestBuild_of_url_error (env : Env) (cli : Client) (ep scope : String)
    (acc : List String) (tr : List Event) (e : GoError) (hu : env.parseURL ep = some e) :
    Client.requestBuild env cli ep scope acc tr = (.error e, cli, tr) := by
  simp [Client.requestBuild, newRequest, hu]

theorem requestBuild_of_token_error (env : Env) (cli : Client) (ep scope : String)
    (acc : List String) (tr : List Event) (e : GoError)
    (hu : env.parseURL ep = none) (hb : cli.basicAuth = false)
    (hc : cli.creds.lookup scope = none)
    (ht : (Client.Token env cli scope tr).1 = .error e) :
    Client.requestBuild env cli ep scope acc tr =
      (.error (.wrap "can not retrieve token: " e), cli, (Client.Token env cli scope tr).2) := by
  simp only [Client.requestBuild, newRequest, hu, hb, hc]
  cases hT : Client.Token env cli scope tr with
  | mk r tr1 =>
    rw [hT] at ht
    simp only at ht
    subst ht
    simp

theorem requestBuild_of_token (env : Env) (cli : Client) (ep scope : String)
    (acc : List String) (tr : List Event) (tok : String)
    (hu : env.parseURL ep = none) (hb : cli.basicAuth = false)
    (hc : cli.creds.lookup scope = none)
    (ht : (Client.Token env cli scope tr).1 = .ok tok) :
    Client.requestBuild env cli ep scope acc tr =
      (.ok ((Request.addAccept ⟨"GET", ep, [], []⟩ acc).headerAdd
          "Authorization" ("Bearer " ++ tok)),
        { cli with creds := credsSet cli.creds scope ⟨scope, tok⟩ },
        (Client.Token env cli scope tr).2) := by
  simp only [Client.requestBuild, newRequest, hu, hb, hc]
  cases hT : Client.Token env cli scope tr with
  | mk r tr1 =>
    rw [hT] at ht
    simp only at ht
    subst ht
    simp

theorem requestBuild_of_hit (env : Env) (cli : Client) (ep scope : String)
    (acc : List String) (tr : List Event) (cred : credentials)
    (hb : cli.basicAuth = false) (hc : cli.creds.lookup scope = some cred) :
    (Client.requestBuild env cli ep scope acc tr).2 = (cli, tr) := by
  simp only [Client.requestBuild, hb, hc]
  cases newRequest env "GET" ep <;> simp

theorem requestBuild_of_basic (env : Env) (cli : Client) (ep scope : String)
    (acc : List String) (tr : List Event) (hb : cli.basicAuth = true) :
    Client.requestBuild env cli ep scope acc tr =
      match env.parseURL ep with
      | some e => (.error e, cli, tr)
      | none =>
        (.ok ((Request.addAccept ⟨"GET", ep, [], []⟩ acc).setBasicAuth
          cli.user cli.pass), cli, tr) := by
  simp only [Client.requestBuild, newRequest, hb]
  cases env.parseURL ep <;> simp

/-- What `request` adds to what `requestBuild` leaves: no call to `Token`, the
same client. -/
theorem request_after_build (env : Env) (cli : Client) (ep scope : String)
    (acc : List String) (tr : List Event) :
    (Client.request env cli ep scope acc tr).2.1 =
        (Client.requestBuild env cli ep scope acc tr).2.1 ∧
      tokenCalls (Client.request env cli ep scope acc tr).2.2 =
        tokenCalls (Client.requestBuild env cli ep scope acc tr).2.2 := by
  rcases hB : Client.requestBuild env cli ep scope acc tr with ⟨_ | req, cli1, tr1⟩
  · simp [Client.request, hB]
  · cases hR : env.roundTrip (sent tr1) req with
    | error e =>
      rw [request_of_transport_error env cli ep scope acc tr req cli1 tr1 e hB hR]
      simp
    | ok resp =>
      rw [request_of_response env cli ep scope acc tr req cli1 tr1 resp hB hR]
      simp only [Client.requestFinish]
      split
      · simp
      · split <;> simp

theorem tokenCalls_httpGet (env : Env) (url : String) (tr : List Event) :
    tokenCalls (httpGet env url tr).2 = tokenCalls tr := by
  simp only [httpGet]
  split
  · rfl
  · simp [httpDo_trace]

theorem tokenCalls_tokenFetch (env : Env) (req : Request) (tr : List Event) :
    tokenCalls (Client.tokenFetch env req tr).2 = tokenCalls tr := by
  have h := httpDo_trace env req tr
  simp only [Client.tokenFetch]
  rcases hd : httpDo env req tr with ⟨_ | ⟨resp, n⟩, tr1⟩ <;> rw [hd] at h <;> simp at h <;>
    simp [h]

theorem tokenCalls_tokenNegotiate (env : Env) (cli : Client) (scope : String)
    (resp : Response) (tr : List Event) :
    tokenCalls (Client.tokenNegotiate env cli scope resp tr).2 = tokenCalls tr := by
  simp only [Client.tokenNegotiate]
  split
  · rfl
  · split
    · rfl
    · exact tokenCalls_tokenFetch env _ tr

theorem tokenCalls_Token (env : Env) (cli : Client) (scope : String) (tr : List Event) :
    tokenCalls (Client.Token env cli scope tr).2 = tokenCalls tr ++ [scope] := by
  simp only [Client.Token]
  split
  · simp
  · rename_i ep hj
    have h := tokenCalls_httpGet env ep (tr ++ [.tokenCall scope])
    rcases hg : httpGet env ep (tr ++ [.tokenCall scope]) with ⟨_ | ⟨resp, n⟩, tr1⟩ <;>
      rw [hg] at h <;> simp only [tokenCalls_append] at h <;> simp only [hg]
    · simpa using h
    · simpa [tokenCalls_tokenNegotiate] using h

theorem lookup_credsSet (m : List (String × credentials)) (key : String) (value : credentials) :
    (credsSet m key value).lookup key = some value := by
  simp [credsSet, List.lookup]

/-! ## The operations -/

theorem Catalog_of_request (env : Env) (cli : Client) (tr : List Event) (ep : String)
    (hj : env.joinPath cli.registry "v2/_catalog" = .ok ep) :
    Client.Catalog env cli tr =
      match Client.request env cli ep catalogScope [] tr with
      | (.error e, cli1, tr1) => (.error e, cli1, tr1)
      | (.ok body, cli1, tr1) =>
        match unmarshalCatalog body with
        | .error e => (.error e, cli1, tr1)
        | .ok r => (.ok r.Repositories, cli1, tr1) := by
  simp only [Client.Catalog, hj]

theorem Tags_of_request (env : Env) (cli : Client) (repository : String) (tr : List Event)
    (ep : String)
    (hj : env.joinPath cli.registry ("v2/" ++ repository ++ "/tags/list/") = .ok ep) :
    Client.Tags env cli repository tr =
      match Client.request env cli ep repositoryScope [] tr with
      | (.error e, cli1, tr1) => (.error e, cli1, tr1)
      | (.ok body, cli1, tr1) =>
        match unmarshalTags body with
        | .error e => (.error e, cli1, tr1)
        | .ok r => (.ok r.Tags, cli1, tr1) := by
  simp only [Client.Tags, hj]

theorem Manifest_of_request (env : Env) (cli : Client) (repository tag : String)
    (tr : List Event) (ep : String)
    (hj : env.joinPath cli.registry ("v2/" ++ repository ++ "/manifests/" ++ tag) = .ok ep) :
    Client.Manifest env cli repository tag tr =
      match Client.request env cli ep repositoryScope accept tr with
      | (.error e, cli1, tr1) => (.error e, cli1, tr1)
      | (.ok body, cli1, tr1) =>
        match unmarshalManifest body with
        | .error e => (.error e, cli1, tr1)
        | .ok m =>
          if stringsContains m.MediaType "list" then
            (.ok Manifest.zero, cli1,
              tr1 ++ [.log ("manifest list in " ++ repository ++ "/" ++ tag)])
          else (.ok m, cli1, tr1) := by
  simp only [Client.Manifest, hj]

/-! ## Claims on the status check and on errors -/

/-- C6: when the response to the request of an operation has a status `c`
other than 200, `request` and with it `Catalog`, `Tags` and `Manifest` fail
with the error "status code: c"; the result does not depend on the body, and
the request is the last event: nothing is decoded, sent again or negotiated. -/
theorem status_failure_is_final (env : Env) (cli : Client) (ep scope : String)
    (acc : List String) (tr : List Event) (req : Request) (cli1 : Client) (tr1 : List Event)
    (resp : Response)
    (hb : Client.requestBuild env cli ep scope acc tr = (.ok req, cli1, tr1))
    (hr : env.roundTrip (sent tr1) req = .ok resp) (hs : resp.statusCode ≠ 200) :
    Client.request env cli ep scope acc tr =
      (.error (statusError resp.statusCode), cli1, tr1 ++ [.send req]) ∧
    (statusError resp.statusCode).message = "status code: " ++ toString resp.statusCode ∧
    (env.joinPath cli.registry "v2/_catalog" = .ok ep → scope = catalogScope → acc = [] →
      Client.Catalog env cli tr =
        (.error (statusError resp.statusCode), cli1, tr1 ++ [.send req])) ∧
    (∀ repository : String,
      env.joinPath cli.registry ("v2/" ++ repository ++ "/tags/list/") = .ok ep →
      scope = repositoryScope → acc = [] →
      Client.Tags env cli repository tr =
        (.error (statusError resp.statusCode), cli1, tr1 ++ [.send req])) ∧
    (∀ repository tag : String,
      env.joinPath cli.registry ("v2/" ++ repository ++ "/manifests/" ++ tag) = .ok ep →
      scope = repositoryScope → acc = accept →
      Client.Manifest env cli repository tag tr =
        (.error (statusError resp.statusCode), cli1, tr1 ++ [.send req])) := by
  have h := request_of_status env cli ep scope acc tr req cli1 tr1 resp hb hr hs
  refine ⟨h, rfl, ?_, ?_, ?_⟩
  · rintro hj rfl rfl
    rw [Catalog_of_request env cli tr ep hj, h]
  · rintro repository hj rfl rfl
    rw [Tags_of_request env cli repository tr ep hj, h]
  · rintro repository tag hj rfl rfl
    rw [Manifest_of_request env cli repository tag tr ep hj, h]

/-- C6, the instance of the spec: a catalog that answers 404 with a body that
would decode. -/
theorem status_failure_is_final_witness :
    Client.Catalog notFoundEnv demoClient [] =
      (.error (.errorsNew "status code: 404"), demoClientWith catalogScope,
        [.tokenCall catalogScope, .send demoV2Request, .send (demoTokenRequest catalogScope),
          .bodyClose 1, .bodyClose 0, .send (demoRequest demoCatalog [])]) :=
  (status_failure_is_final notFoundEnv demoClient demoCatalog catalogScope [] []
    (demoRequest demoCatalog []) (demoClientWith catalogScope)
    [.tokenCall catalogScope, .send demoV2Request, .send (demoTokenRequest catalogScope),
      .bodyClose 1, .bodyClose 0]
    ⟨404, [], "\x7b\"repositories\":[\"a\"]\x7d", none⟩
    (by decide) (by decide) (by decide)).2.2.1 (by decide) rfl rfl

/-- C10, the failing input: `request` gets a 404 for the catalog.  The bodies of
the two responses inside `Token` (0 and 1) are closed, the body of the 404
response (2) is not; on a 200 it is. -/
theorem request_leaves_body_open_on_status_failure :
    (Client.request notFoundEnv demoClient demoCatalog catalogScope [] []).1 =
      .error (statusError 404) ∧
    sent (Client.request notFoundEnv demoClient demoCatalog catalogScope [] []).2.2 =
      [demoV2Request, demoTokenRequest catalogScope, demoRequest demoCatalog []] ∧
    closed (Client.request notFoundEnv demoClient demoCatalog catalogScope [] []).2.2 = [1, 0] ∧
    closed (Client.request catalogEnv demoClient demoCatalog catalogScope [] []).2.2 =
      [1, 0, 2] := by
  decide

/-- C9 as stated fails: the transport error inside `Token` reaches the caller
of `Catalog` wrapped in "can not retrieve token: ". -/
theorem token_error_is_wrapped :
    (Client.Token downEnv demoClient catalogScope []).1 = .error (.lib "connection refused") ∧
    (Client.Catalog downEnv demoClient []).1 =
      .error (.wrap "can not retrieve token: " (.lib "connection refused")) ∧
    (Client.Catalog downEnv demoClient []).1 ≠ .error (.lib "connection refused") := by
  decide

/-- C9 (amended): the errors of URL construction (`url.JoinPath`,
`http.NewRequest`), of the transport (sending, reading the body), of the status
check and of JSON decoding are returned by `request` and by `Catalog`, `Tags`
and `Manifest` as they are; an error `e` of `Token` is returned wrapped, as
`fmt.Errorf("can not retrieve token: %w", e)`. -/
theorem errors_reach_the_caller (env : Env) (cli : Client) (tr : List Event) :
    (∀ (ep scope : String) (acc : List String) (e : GoError), env.parseURL ep = some e →
      (Client.request env cli ep scope acc tr).1 = .error e) ∧
    (∀ (ep scope : String) (acc : List String) (e : GoError), env.parseURL ep = none →
      cli.basicAuth = false → cli.creds.lookup scope = none →
      (Client.Token env cli scope tr).1 = .error e →
      (Client.request env cli ep scope acc tr).1 = .error (.wrap "can not retrieve token: " e) ∧
      (GoError.wrap "can not retrieve token: " e).message =
        "can not retrieve token: " ++ e.message) ∧
    (∀ (ep scope : String) (acc : List String) (req : Request) (cli1 : Client)
      (tr1 : List Event),
      Client.requestBuild env cli ep scope acc tr = (.ok req, cli1, tr1) →
      (∀ e : GoError, env.roundTrip (sent tr1) req = .error e →
        (Client.request env cli ep scope acc tr).1 = .error e) ∧
      (∀ resp : Response, env.roundTrip (sent tr1) req = .ok resp → resp.statusCode ≠ 200 →
        (Client.request env cli ep scope acc tr).1 = .error (statusError resp.statusCode)) ∧
      (∀ (resp : Response) (e : GoError), env.roundTrip (sent tr1) req = .ok resp →
        resp.statusCode = 200 → resp.readErr = some e →
        (Client.request env cli ep scope acc tr).1 = .error e)) ∧
    (∀ e : GoError, env.joinPath cli.registry "v2/_catalog" = .error e →
      (Client.Catalog env cli tr).1 = .error e) ∧
    (∀ (repository : String) (e : GoError),
      env.joinPath cli.registry ("v2/" ++ repository ++ "/tags/list/") = .error e →
      (Client.Tags env cli repository tr).1 = .error e) ∧
    (∀ (repository tag : String) (e : GoError),
      env.joinPath cli.registry ("v2/" ++ repository ++ "/manifests/" ++ tag) = .error e →
      (Client.Manifest env cli repository tag tr).1 = .error e) ∧
    (∀ ep : String, env.joinPath cli.registry "v2/_catalog" = .ok ep →
      (∀ e : GoError, (Client.request env cli ep catalogScope [] tr).1 = .error e →
        (Client.Catalog env cli tr).1 = .error e) ∧
      (∀ (body : String) (e : GoError),
        (Client.request env cli ep catalogScope [] tr).1 = .ok body →
        unmarshalCatalog body = .error e → (Client.Catalog env cli tr).1 = .error e)) ∧
    (∀ repository ep : String,
      env.joinPath cli.registry ("v2/" ++ repository ++ "/tags/list/") = .ok ep →
      (∀ e : GoError, (Client.request env cli ep repositoryScope [] tr).1 = .error e →
        (Client.Tags env cli repository tr).1 = .error e) ∧
      (∀ (body : String) (e : GoError),
        (Client.request env cli ep repositoryScope [] tr).1 = .ok body →
        unmarshalTags body = .error e → (Client.Tags env cli repository tr).1 = .error e)) ∧
    (∀ repository tag ep : String,
      env.joinPath cli.registry ("v2/" ++ repository ++ "/manifests/" ++ tag) = .ok ep →
      (∀ e : GoError, (Client.request env cli ep repositoryScope accept tr).1 = .error e →
        (Client.Manifest env cli repository tag tr).1 = .error e) ∧
      (∀ (body : String) (e : GoError),
        (Client.request env cli ep repositoryScope accept tr).1 = .ok body →
        unmarshalManifest body = .error e →
        (Client.Manifest env cli repository tag tr).1 = .error e)) := by
  refine ⟨?_, ?_, ?_, ?_, ?_, ?_, ?_, ?_, ?_⟩
  · intro ep scope acc e hu
    rw [request_of_build_error env cli ep scope acc tr e cli tr
      (requestBuild_of_url_error env cli ep scope acc tr e hu)]
  · intro ep scope acc e hu hb hc ht
    refine ⟨?_, rfl⟩
    rw [request_of_build_error env cli ep scope acc tr _ cli _
      (requestBuild_of_token_error env cli ep scope acc tr e hu hb hc ht)]
  · intro ep scope acc req cli1 tr1 hb
    refine ⟨?_, ?_, ?_⟩
    · intro e hr
      rw [request_of_transport_error env cli ep scope acc tr req cli1 tr1 e hb hr]
    · intro resp hr hs
      rw [request_of_status env cli ep scope acc tr req cli1 tr1 resp hb hr hs]
    · intro resp e hr hs he
      rw [request_of_read_error env cli ep scope acc tr req cli1 tr1 resp e hb hr hs he]
  · intro e hj
    simp [Client.Catalog, hj]
  · intro repository e hj
    simp [Client.Tags, hj]
  · intro repository tag e hj
    simp [Client.Manifest, hj]
  · intro ep hj
    rw [Catalog_of_request env cli tr ep hj]
    rcases hR : Client.request env cli ep catalogScope [] tr with ⟨_ | body1, cli1, tr1⟩
    · simp
    · constructor
      · intro e h; simp at h
      · intro body e h hu
        simp only [Except.ok.injEq] at h
        subst h
        simp [hu]
  · intro repository ep hj
    rw [Tags_of_request env cli repository tr ep hj]
    rcases hR : Client.request env cli ep repositoryScope [] tr with ⟨_ | body1, cli1, tr1⟩
    · simp
    · constructor
      · intro e h; simp at h
      · intro body e h hu
        simp only [Except.ok.injEq] at h
        subst h
        simp [hu]
  · intro repository tag ep hj
    rw [Manifest_of_request env cli repository tag tr ep hj]
    rcases hR : Client.request env cli ep repositoryScope accept tr with ⟨_ | body1, cli1, tr1⟩
    · simp
    · constructor
      · intro e h; simp at h
      · intro body e h hu
        simp only [Except.ok.injEq] at h
        subst h
        simp [hu]

/-- C9, instances: an unreachable registry (the error of `Token` is wrapped), and
a catalog that is not JSON (the decoding error is returned as it is). -/
theorem errors_reach_the_caller_witness :
    (Client.request downEnv demoClient demoCatalog catalogScope [] []).1 =
      .error (.wrap "can not retrieve token: " (.lib "connection refused")) ∧
    (Client.Catalog (tableEnv (demoAuth ++ [(demoCatalog, okBody "<html>")])) demoClient []).1 =
      .error .jsonSyntax :=
  ⟨((errors_reach_the_caller downEnv demoClient []).2.1 demoCatalog catalogScope []
      (.lib "connection refused") (by decide) (by decide) (by decide) (by decide)).1,
    ((errors_reach_the_caller (tableEnv (demoAuth ++ [(demoCatalog, okBody "<html>")]))
      demoClient []).2.2.2.2.2.2.1 demoCatalog (by decide)).2 "<html>" .jsonSyntax
      (by decide) (by decide)⟩

/-! ## Claims on the credential cache and on Basic mode -/

theorem request_of_hit (env : Env) (cli : Client) (ep scope : String) (acc : List String)
    (tr : List Event) (cred : credentials)
    (hb : cli.basicAuth = false) (hc : cli.creds.lookup scope = some cred) :
    (Client.request env cli ep scope acc tr).2.1 = cli ∧
      tokenCalls (Client.request env cli ep scope acc tr).2.2 = tokenCalls tr := by
  have h := request_after_build env cli ep scope acc tr
  rw [requestBuild_of_hit env cli ep scope acc tr cred hb hc] at h
  exact h

theorem request_of_miss (env : Env) (cli : Client) (ep scope : String) (acc : List String)
    (tr : List Event) (tok : String)
    (hu : env.parseURL ep = none) (hb : cli.basicAuth = false)
    (hc : cli.creds.lookup scope = none)
    (ht : (Client.Token env cli scope tr).1 = .ok tok) :
    (Client.request env cli ep scope acc tr).2.1 =
        { cli with creds := credsSet cli.creds scope ⟨scope, tok⟩ } ∧
      tokenCalls (Client.request env cli ep scope acc tr).2.2 = tokenCalls tr ++ [scope] := by
  have h := request_after_build env cli ep scope acc tr
  rw [requestBuild_of_token env cli ep scope acc tr tok hu hb hc ht] at h
  simpa [tokenCalls_Token] using h

theorem Tags_after_request (env : Env) (cli : Client) (repository : String)
    (tr : List Event) (ep : String)
    (hj : env.joinPath cli.registry ("v2/" ++ repository ++ "/tags/list/") = .ok ep) :
    (Client.Tags env cli repository tr).2 =
      (Client.request env cli ep repositoryScope [] tr).2 := by
  rw [Tags_of_request env cli repository tr ep hj]
  rcases Client.request env cli ep repositoryScope [] tr with ⟨_ | body, cli1, tr1⟩
  · rfl
  · simp only
    split <;> rfl

theorem Catalog_after_request (env : Env) (cli : Client) (tr : List Event) (ep : String)
    (hj : env.joinPath cli.registry "v2/_catalog" = .ok ep) :
    (Client.Catalog env cli tr).2 = (Client.request env cli ep catalogScope [] tr).2 := by
  rw [Catalog_of_request env cli tr ep hj]
  rcases Client.request env cli ep catalogScope [] tr with ⟨_ | body, cli1, tr1⟩
  · rfl
  · simp only
    split <;> rfl

theorem Manifest_after_request (env : Env) (cli : Client) (repository tag : String)
    (tr : List Event) (ep : String)
    (hj : env.joinPath cli.registry ("v2/" ++ repository ++ "/manifests/" ++ tag) = .ok ep) :
    (Client.Manifest env cli repository tag tr).2.1 =
        (Client.request env cli ep repositoryScope accept tr).2.1 ∧
      tokenCalls (Client.Manifest env cli repository tag tr).2.2 =
        tokenCalls (Client.request env cli ep repositoryScope accept tr).2.2 ∧
      sent (Client.Manifest env cli repository tag tr).2.2 =
        sent (Client.request env cli ep repositoryScope accept tr).2.2 := by
  rw [Manifest_of_request env cli repository tag tr ep hj]
  rcases Client.request env cli ep repositoryScope accept tr with ⟨_ | body, cli1, tr1⟩
  · simp
  · simp only
    split
    · simp
    · split <;> simp

/-- A cache hit in `Manifest`: no call to `Token`, the client as it was. -/
theorem Manifest_of_hit (env : Env) (cli : Client) (repository tag : String)
    (tr : List Event) (cred : credentials)
    (hb : cli.basicAuth = false) (hc : cli.creds.lookup repositoryScope = some cred) :
    (Client.Manifest env cli repository tag tr).2.1 = cli ∧
      tokenCalls (Client.Manifest env cli repository tag tr).2.2 = tokenCalls tr := by
  cases hj : env.joinPath cli.registry ("v2/" ++ repository ++ "/manifests/" ++ tag) with
  | error e => simp [Client.Manifest, hj]
  | ok ep =>
    have h := Manifest_after_request env cli repository tag tr ep hj
    have h2 := request_of_hit env cli ep repositoryScope accept tr cred hb hc
    exact ⟨h.1.trans h2.1, h.2.1.trans h2.2⟩

/-- C1 as stated fails: against a registry that cannot be reached, `Tags`
followed by `Manifest` calls `Token` twice, and nothing is stored. -/
theorem failed_negotiation_is_repeated :
    demoClient.basicAuth = false ∧ demoClient.creds = [] ∧
    tokenCalls (Client.Tags downEnv demoClient "a" []).2.2 = [repositoryScope] ∧
    (Client.Tags downEnv demoClient "a" []).2.1.creds = [] ∧
    tokenCalls (Client.Manifest downEnv (Client.Tags downEnv demoClient "a" []).2.1 "a" "latest"
      (Client.Tags downEnv demoClient "a" []).2.2).2.2 = [repositoryScope, repositoryScope] := by
  decide

/-- C1 (amended): for a client in Bearer mode with an empty cache, when the
first of two consecutive operations on a scope builds its request and its call
to `Token` succeeds with `tok`, the two operations call `Token` once in total:
the first calls it and stores `tok` under the scope, the second finds it and
does not call `Token`.  So it is for `Tags` followed by `Manifest`. -/
theorem one_negotiation_per_scope (env : Env) (cli : Client) (tr : List Event) (tok : String)
    (hb : cli.basicAuth = false) (hc : cli.creds = []) :
    (∀ (scope ep1 ep2 : String) (acc1 acc2 : List String),
      env.parseURL ep1 = none → (Client.Token env cli scope tr).1 = .ok tok →
      ∀ r1, r1 = Client.request env cli ep1 scope acc1 tr →
      ∀ r2, r2 = Client.request env r1.2.1 ep2 scope acc2 r1.2.2 →
        tokenCalls r1.2.2 = tokenCalls tr ++ [scope] ∧
        r1.2.1.creds = [(scope, ⟨scope, tok⟩)] ∧
        tokenCalls r2.2.2 = tokenCalls r1.2.2 ∧
        r2.2.1.creds = r1.2.1.creds) ∧
    (∀ repo1 repo2 tag ep : String,
      env.joinPath cli.registry ("v2/" ++ repo1 ++ "/tags/list/") = .ok ep →
      env.parseURL ep = none → (Client.Token env cli repositoryScope tr).1 = .ok tok →
      ∀ r1, r1 = Client.Tags env cli repo1 tr →
      ∀ r2, r2 = Client.Manifest env r1.2.1 repo2 tag r1.2.2 →
        tokenCalls r1.2.2 = tokenCalls tr ++ [repositoryScope] ∧
        r1.2.1.creds = [(repositoryScope, ⟨repositoryScope, tok⟩)] ∧
        tokenCalls r2.2.2 = tokenCalls r1.2.2 ∧
        r2.2.1.creds = r1.2.1.creds) := by
  have hl : ∀ scope : String, cli.creds.lookup scope = none := by
    intro scope; rw [hc]; rfl
  constructor
  · intro scope ep1 ep2 acc1 acc2 hu ht r1 hr1 r2 hr2
    obtain ⟨m1, m2⟩ := request_of_miss env cli ep1 scope acc1 tr tok hu hb (hl scope) ht
    rw [← hr1] at m1 m2
    have hcr : r1.2.1.creds = [(scope, ⟨scope, tok⟩)] := by
      rw [m1, hc]; rfl
    have hb1 : r1.2.1.basicAuth = false := by rw [m1]; exact hb
    have hlk : r1.2.1.creds.lookup scope = some ⟨scope, tok⟩ := by
      rw [hcr]; simp [List.lookup]
    obtain ⟨n1, n2⟩ := request_of_hit env r1.2.1 ep2 scope acc2 r1.2.2 _ hb1 hlk
    rw [← hr2] at n1 n2
    exact ⟨m2, hcr, n2, by rw [n1]⟩
  · intro repo1 repo2 tag ep hj hu ht r1 hr1 r2 hr2
    obtain ⟨m1, m2⟩ := request_of_miss env cli ep repositoryScope [] tr tok hu hb
      (hl repositoryScope) ht
    have hT := Tags_after_request env cli repo1 tr ep hj
    rw [← hr1] at hT
    rw [← hT] at m1 m2
    have hcr : r1.2.1.creds = [(repositoryScope, ⟨repositoryScope, tok⟩)] := by
      rw [m1, hc]; rfl
    have hb1 : r1.2.1.basicAuth = false := by rw [m1]; exact hb
    have hlk : r1.2.1.creds.lookup repositoryScope = some ⟨repositoryScope, tok⟩ := by
      rw [hcr]; simp [List.lookup]
    obtain ⟨n1, n2⟩ := Manifest_of_hit env r1.2.1 repo2 tag r1.2.2 _ hb1 hlk
    rw [← hr2] at n1 n2
    exact ⟨m2, hcr, n2, by rw [n1]⟩

/-- C1, an instance: `Tags` then `Manifest` on the example registry. -/
theorem one_negotiation_per_scope_witness :
    tokenCalls (Client.Tags listEnv demoClient "a" []).2.2 = [repositoryScope] ∧
    (Client.Tags listEnv demoClient "a" []).2.1.creds =
      [(repositoryScope, ⟨repositoryScope, "abc"⟩)] ∧
    tokenCalls (Client.Manifest listEnv (Client.Tags listEnv demoClient "a" []).2.1 "a" "latest"
      (Client.Tags listEnv demoClient "a" []).2.2).2.2 =
      tokenCalls (Client.Tags listEnv demoClient "a" []).2.2 ∧
    (Client.Manifest listEnv (Client.Tags listEnv demoClient "a" []).2.1 "a" "latest"
      (Client.Tags listEnv demoClient "a" []).2.2).2.1.creds =
      (Client.Tags listEnv demoClient "a" []).2.1.creds :=
  (one_negotiation_per_scope listEnv demoClient [] "abc" (by decide) (by decide)).2
    "a" "a" "latest" demoTags (by decide) (by decide) (by decide) _ rfl _ rfl

theorem authorization_setBasicAuth (r : Request) (username password : String) :
    (r.setBasicAuth username password).authorization = [basicAuthValue username password] := by
  simp [Request.setBasicAuth, Request.headerSet, Request.authorization, List.filter_append,
    List.filter_filter]

theorem basicAuthValue_not_bearer (username password : String) :
    ¬ "Bearer ".data <+: (basicAuthValue username password).data := by
  have e1 : "Bearer ".data = 'B' :: 'e' :: "arer ".data := rfl
  have e2 : (basicAuthValue username password).data =
      'B' :: 'a' :: ("sic ".data ++
        base64Encode (utf8Bytes (username ++ ":" ++ password))) := rfl
  rw [e1, e2, List.cons_prefix_cons, List.cons_prefix_cons]
  intro h
  exact absurd h.2.1 (by decide)

/-- In Basic mode `request` keeps the client, calls no `Token` and sends at most
one request, with the Basic credentials. -/
theorem request_of_basic (env : Env) (cli : Client) (ep scope : String) (acc : List String)
    (tr : List Event) (hb : cli.basicAuth = true) :
    (Client.request env cli ep scope acc tr).2.1 = cli ∧
      tokenCalls (Client.request env cli ep scope acc tr).2.2 = tokenCalls tr ∧
      (sent (Client.request env cli ep scope acc tr).2.2 = sent tr ∨
        ∃ req, sent (Client.request env cli ep scope acc tr).2.2 = sent tr ++ [req] ∧
          req.authorization = [basicAuthValue cli.user cli.pass]) := by
  have hB := requestBuild_of_basic env cli ep scope acc tr hb
  cases hu : env.parseURL ep with
  | some e =>
    rw [hu] at hB
    rw [request_of_build_error env cli ep scope acc tr e cli tr hB]
    simp
  | none =>
    rw [hu] at hB
    simp only at hB
    generalize (Request.addAccept ⟨"GET", ep, [], []⟩ acc) = q at hB
    have ha := authorization_setBasicAuth q cli.user cli.pass
    cases hR : env.roundTrip (sent tr) (q.setBasicAuth cli.user cli.pass) with
    | error e =>
      rw [request_of_transport_error env cli ep scope acc tr _ cli tr e hB hR]
      exact ⟨rfl, by simp, Or.inr ⟨q.setBasicAuth cli.user cli.pass, by simp, ha⟩⟩
    | ok resp =>
      rw [request_of_response env cli ep scope acc tr _ cli tr resp hB hR]
      refine ⟨rfl, ?_, Or.inr ⟨q.setBasicAuth cli.user cli.pass, ?_, ha⟩⟩
      · simp only [Client.requestFinish]
        split
        · simp
        · split <;> simp
      · simp only [Client.requestFinish]
        split
        · simp
        · split <;> simp

/-- C2: a client made with `Options.BasicAuth = true` is in Basic mode, and in
Basic mode `request`, `Catalog`, `Tags` and `Manifest` never call `Token`,
leave the client and its credential cache as they were, and the request they
send carries as its only `Authorization` value the Basic credentials of the
client's user and password, which is not a Bearer value. -/
theorem basic_mode_never_negotiates (env : Env) (cli : Client) (tr : List Event)
    (hb : cli.basicAuth = true) :
    (∀ (registry user pass : String) (opts : Options), opts.BasicAuth = true →
      (New registry user pass opts).basicAuth = true) ∧
    ¬ "Bearer ".data <+: (basicAuthValue cli.user cli.pass).data ∧
    (∀ (ep scope : String) (acc : List String) r, r = Client.request env cli ep scope acc tr →
      r.2.1 = cli ∧ tokenCalls r.2.2 = tokenCalls tr ∧
      (sent r.2.2 = sent tr ∨ ∃ req, sent r.2.2 = sent tr ++ [req] ∧
        req.authorization = [basicAuthValue cli.user cli.pass])) ∧
    (∀ r, r = Client.Catalog env cli tr →
      r.2.1 = cli ∧ tokenCalls r.2.2 = tokenCalls tr ∧
      (sent r.2.2 = sent tr ∨ ∃ req, sent r.2.2 = sent tr ++ [req] ∧
        req.authorization = [basicAuthValue cli.user cli.pass])) ∧
    (∀ (repository : String) r, r = Client.Tags env cli repository tr →
      r.2.1 = cli ∧ tokenCalls r.2.2 = tokenCalls tr ∧
      (sent r.2.2 = sent tr ∨ ∃ req, sent r.2.2 = sent tr ++ [req] ∧
        req.authorization = [basicAuthValue cli.user cli.pass])) ∧
    (∀ (repository tag : String) r, r = Client.Manifest env cli repository tag tr →
      r.2.1 = cli ∧ tokenCalls r.2.2 = tokenCalls tr ∧
      (sent r.2.2 = sent tr ∨ ∃ req, sent r.2.2 = sent tr ++ [req] ∧
        req.authorization = [basicAuthValue cli.user cli.pass])) := by
  refine ⟨?_, basicAuthValue_not_bearer _ _, ?_, ?_, ?_, ?_⟩
  · intro registry user pass opts h
    exact h
  · intro ep scope acc r hr
    rw [hr]
    exact request_of_basic env cli ep scope acc tr hb
  · intro r hr
    rw [hr]
    cases hj : env.joinPath cli.registry "v2/_catalog" with
    | error e => simp [Client.Catalog, hj]
    | ok ep =>
      rw [Catalog_after_request env cli tr ep hj]
      exact request_of_basic env cli ep catalogScope [] tr hb
  · intro repository r hr
    rw [hr]
    cases hj : env.joinPath cli.registry ("v2/" ++ repository ++ "/tags/list/") with
    | error e => simp [Client.Tags, hj]
    | ok ep =>
      rw [Tags_after_request env cli repository tr ep hj]
      exact request_of_basic env cli ep repositoryScope [] tr hb
  · intro repository tag r hr
    rw [hr]
    cases hj : env.joinPath cli.registry ("v2/" ++ repository ++ "/manifests/" ++ tag) with
    | error e => simp [Client.Manifest, hj]
    | ok ep =>
      obtain ⟨h1, h2, h3⟩ := Manifest_after_request env cli repository tag tr ep hj
      rw [h1, h2, h3]
      exact request_of_basic env cli ep repositoryScope accept tr hb

/-- C2, an instance: `Manifest` in Basic mode on the example registry. -/
theorem basic_mode_never_negotiates_witness :
    (Client.Manifest imageEnv basicClient "a" "latest" []).2.1 = basicClient ∧
    tokenCalls (Client.Manifest imageEnv basicClient "a" "latest" []).2.2 = tokenCalls [] :=
  ⟨((basic_mode_never_negotiates imageEnv basicClient [] (by decide)).2.2.2.2.2
      "a" "latest" _ rfl).1,
    ((basic_mode_never_negotiates imageEnv basicClient [] (by decide)).2.2.2.2.2
      "a" "latest" _ rfl).2.1⟩

/-! ## The nesting limit of `encoding/json` -/

theorem foldlM_lexStep_replicate (c : Char) (tok : JTok)
    (hstep : ∀ toks, lexStep ⟨toks, .top⟩ c = some ⟨tok :: toks, .top⟩) (n : Nat)
    (toks : List JTok) :
    (List.replicate n c).foldlM lexStep ⟨toks, .top⟩ =
      some ⟨List.replicate n tok ++ toks, .top⟩ := by
  induction n generalizing toks with
  | zero => rfl
  | succ n ih =>
    rw [List.replicate_succ, List.foldlM_cons, hstep]
    simp only [Option.bind_eq_bind, Option.some_bind]
    rw [ih, List.replicate_succ', List.append_assoc]
    rfl

theorem lex_deepBody (n : Nat) :
    lex (deepBody n).data =
      some ([.lbrace, .str "a", .colon] ++
        (List.replicate n JTok.lbrack ++ (List.replicate n JTok.rbrack ++ [.rbrace]))) := by
  have h0 : ("\x7b\"a\":".data).foldlM lexStep ⟨[], .top⟩ =
      some ⟨[.colon, .str "a", .lbrace], .top⟩ := by decide
  have h1 := foldlM_lexStep_replicate (Char.ofNat 91) .lbrack (fun _ => rfl) n
    [.colon, .str "a", .lbrace]
  have h2 := foldlM_lexStep_replicate (Char.ofNat 93) .rbrack (fun _ => rfl) n
    (List.replicate n JTok.lbrack ++ [.colon, .str "a", .lbrace])
  have h3 : ∀ toks, [Char.ofNat 125].foldlM lexStep ⟨toks, .top⟩ =
      some ⟨.rbrace :: toks, .top⟩ := fun _ => rfl
  simp only [lex, deepBody, List.foldlM_append, h0, h1, h2, h3, Option.bind_eq_bind,
    Option.some_bind]
  simp [List.reverse_replicate]

theorem pStep_open_array (stack : List Frame) (e : Expect)
    (he : e = .value ∨ e = .valueOrClose) :
    pStep ⟨stack, e⟩ .lbrack =
      if stack.length < maxNestingDepth then some ⟨.arr [] :: stack, .valueOrClose⟩
      else none := by
  rcases he with rfl | rfl <;> simp [pStep, pStart]

/-- Opening `k` arrays within the limit. -/
theorem foldlM_pStep_open (k : Nat) :
    ∀ (stack : List Frame) (e : Expect), (e = .value ∨ e = .valueOrClose) →
      stack.length + k ≤ maxNestingDepth →
      ∃ (stack1 : List Frame) (e1 : Expect), stack1.length = stack.length + k ∧
        (e1 = .value ∨ e1 = .valueOrClose) ∧
        ∀ rest, (List.replicate k JTok.lbrack ++ rest).foldlM pStep ⟨stack, e⟩ =
          rest.foldlM pStep ⟨stack1, e1⟩ := by
  induction k with
  | zero =>
    intro stack e he _
    exact ⟨stack, e, rfl, he, fun _ => rfl⟩
  | succ k ih =>
    intro stack e he hk
    obtain ⟨stack1, e1, hl, he1, hf⟩ :=
      ih (.arr [] :: stack) .valueOrClose (Or.inr rfl)
        (by simp only [List.length_cons]; omega)
    refine ⟨stack1, e1, by simp only [List.length_cons] at hl; omega, he1, ?_⟩
    intro rest
    rw [List.replicate_succ, List.cons_append, List.foldlM_cons,
      pStep_open_array stack e he, if_pos (by omega)]
    simp only [Option.bind_eq_bind, Option.some_bind]
    exact hf rest

/-- A body nested deeper than `maxNestingDepth` is not accepted. -/
theorem jsonParse_deepBody (n : Nat) (h : maxNestingDepth ≤ n) :
    jsonParse (deepBody n) = none := by
  have hmax : 1 ≤ maxNestingDepth := by decide
  obtain ⟨m, rfl⟩ : ∃ m, n = (maxNestingDepth - 1) + (m + 1) :=
    ⟨n - maxNestingDepth, by omega⟩
  have h0 : ([JTok.lbrace, .str "a", .colon]).foldlM pStep ⟨[], .value⟩ =
      some ⟨[.obj [] "a"], .value⟩ := rfl
  obtain ⟨stack1, e1, hl, he1, hf⟩ :=
    foldlM_pStep_open (maxNestingDepth - 1) [.obj [] "a"] .value (Or.inl rfl)
      (by simp only [List.length_singleton]; omega)
  simp only [List.length_singleton] at hl
  simp only [jsonParse, lex_deepBody, List.foldlM_append, h0, Option.bind_eq_bind,
    Option.some_bind]
  rw [List.replicate_add, List.replicate_succ, List.foldlM_append]
  have hf1 := hf []
  simp only [List.append_nil] at hf1
  rw [hf1]
  simp only [List.foldlM_nil, Option.pure_def, Option.bind_eq_bind, Option.some_bind,
    List.foldlM_cons, pStep_open_array stack1 e1 he1]
  rw [if_neg (by omega)]
  rfl

/-! ## Claims on decoding -/

theorem containsChars_iff (s sub : List Char) : containsChars s sub = true ↔ sub <:+: s := by
  induction s with
  | nil =>
    simp only [containsChars, List.isPrefixOf_iff_prefix, List.prefix_nil, List.infix_nil]
  | cons c cs ih =>
    simp only [containsChars, Bool.or_eq_true, List.isPrefixOf_iff_prefix, ih,
      List.infix_cons_iff]

theorem stringsContains_iff (s substr : String) :
    stringsContains s substr = true ↔ substr.data <:+: s.data :=
  containsChars_iff s.data substr.data

/-- C7: when the 200 response to the request of `Manifest` has a body that
decodes to the manifest `m`, `Manifest` returns the zero manifest and no error
if the media type of `m` contains "list", and `m` itself if it does not. -/
theorem manifest_list_is_skipped (env : Env) (cli : Client) (repository tag : String)
    (tr : List Event) (ep : String) (req : Request) (cli1 : Client) (tr1 : List Event)
    (resp : Response) (m : Manifest)
    (hj : env.joinPath cli.registry ("v2/" ++ repository ++ "/manifests/" ++ tag) = .ok ep)
    (hb : Client.requestBuild env cli ep repositoryScope accept tr = (.ok req, cli1, tr1))
    (hr : env.roundTrip (sent tr1) req = .ok resp) (hs : resp.statusCode = 200)
    (he : resp.readErr = none) (hm : unmarshalManifest resp.body = .ok m) :
    ("list".data <:+: m.MediaType.data →
      (Client.Manifest env cli repository tag tr).1 = .ok Manifest.zero ∧
      Manifest.zero = ⟨0, "", ⟨"", 0, ""⟩, []⟩) ∧
    (¬ "list".data <:+: m.MediaType.data →
      (Client.Manifest env cli repository tag tr).1 = .ok m) := by
  have hR := request_of_body env cli ep repositoryScope accept tr req cli1 tr1 resp hb hr hs he
  rw [Manifest_of_request env cli repository tag tr ep hj, hR]
  simp only [hm]
  constructor
  · intro hl
    rw [if_pos ((stringsContains_iff _ _).mpr hl)]
    exact ⟨rfl, rfl⟩
  · intro hl
    rw [if_neg (fun h => hl ((stringsContains_iff _ _).mp h))]

/-- C7, the instances of the spec: a manifest list, and an image manifest with
two layers. -/
theorem manifest_list_is_skipped_witness :
    (Client.Manifest listEnv basicClient "a" "latest" []).1 = .ok Manifest.zero ∧
    (Client.Manifest imageEnv basicClient "a" "latest" []).1 = .ok imageManifest :=
  ⟨((manifest_list_is_skipped listEnv basicClient "a" "latest" [] demoManifest
      ⟨"GET", demoManifest, [], [("Accept", "application/vnd.docker.distribution.manifest.v2+json"),
        ("Authorization", "Basic dXNlcjpzZWNyZXQ=")]⟩ basicClient [] (okBody listBody)
      ⟨2, "application/vnd.docker.distribution.manifest.list.v2+json", Descriptor.zero, []⟩
      (by decide) (by decide) (by decide) (by decide) (by decide) (by decide)).1 (by decide)).1,
    (manifest_list_is_skipped imageEnv basicClient "a" "latest" [] demoManifest
      ⟨"GET", demoManifest, [], [("Accept", "application/vnd.docker.distribution.manifest.v2+json"),
        ("Authorization", "Basic dXNlcjpzZWNyZXQ=")]⟩ basicClient [] (okBody imageBody)
      imageManifest
      (by decide) (by decide) (by decide) (by decide) (by decide) (by decide)).2 (by decide)⟩

theorem foldl_tokenField_of_no_key (members : List (String × Json))
    (st : TokenResponse × Option GoError)
    (h : ∀ kv ∈ members, keyIs kv.1 "Token" = false) :
    members.foldl
      (fun st m => ((tokenField st.1 m.1 m.2).1, firstErr st.2 (tokenField st.1 m.1 m.2).2)) st
      = st := by
  induction members generalizing st with
  | nil => rfl
  | cons kv rest ih =>
    have hk := h kv (List.mem_cons_self kv rest)
    simp only [List.foldl_cons, tokenField, hk]
    have e : firstErr st.2 none = st.2 := by
      cases st.2 <;> rfl
    simp only [Bool.false_eq_true, if_false, e]
    exact ih _ fun w hw => h w (List.mem_cons_of_mem kv hw)

theorem unmarshalToken_of_invalid (body : String) (h : jsonParse body = none) :
    unmarshalToken body = .error .jsonSyntax := by
  simp [unmarshalToken, unmarshal, h]

theorem unmarshalToken_of_no_key (body : String) (members : List (String × Json))
    (h : jsonParse body = some (.obj members))
    (hk : ∀ kv ∈ members, keyIs kv.1 "Token" = false) :
    unmarshalToken body = .ok ⟨""⟩ := by
  simp only [unmarshalToken, unmarshal, h, decodeStruct]
  rw [foldl_tokenField_of_no_key members _ hk]

theorem unmarshalToken_of_one_key (body : String) (before after : List (String × Json))
    (k t : String)
    (h : jsonParse body = some (.obj (before ++ (k, .str t) :: after)))
    (hb : ∀ kv ∈ before, keyIs kv.1 "Token" = false) (hk : keyIs k "Token" = true)
    (ha : ∀ kv ∈ after, keyIs kv.1 "Token" = false) :
    unmarshalToken body = .ok ⟨t⟩ := by
  have hstep : tokenField ⟨""⟩ k (.str t) = (⟨t⟩, none) := by
    simp [tokenField, hk, decodeString]
  simp only [unmarshalToken, unmarshal, h, decodeStruct, List.foldl_append, List.foldl_cons]
  rw [foldl_tokenField_of_no_key before _ hb]
  dsimp only
  rw [hstep]
  dsimp only
  rw [show firstErr none none = none from rfl, foldl_tokenField_of_no_key after _ ha]

/-- The function `Token` once the token service has answered. -/
theorem Token_of_token_response (env : Env) (cli : Client) (scope : String)
    (tr : List Event) (ep : String) (resp : Response) (realm service : String)
    (req : Request) (resp2 : Response)
    (hj : env.joinPath cli.registry "/v2/" = .ok ep) (hp : env.parseURL ep = none)
    (hr : env.roundTrip (sent tr) ⟨"GET", ep, [], []⟩ = .ok resp)
    (hc : Client.tokenChallenge resp = .ok (realm, service))
    (hq : Client.tokenRequest env cli scope realm service = .ok req)
    (hr2 : env.roundTrip (sent tr ++ [⟨"GET", ep, [], []⟩]) req = .ok resp2) :
    Client.Token env cli scope tr =
      (Client.tokenDecode resp2,
        tr ++ [.tokenCall scope, .send ⟨"GET", ep, [], []⟩, .send req,
          .bodyClose ((sent tr).length + 1), .bodyClose (sent tr).length]) := by
  rw [Token_of_version_response env cli scope tr ep resp hj hp hr]
  have hd := httpDo_ok env req (tr ++ [.tokenCall scope, .send ⟨"GET", ep, [], []⟩]) resp2
    (by simpa using hr2)
  simp [Client.tokenNegotiate, hc, hq, Client.tokenFetch, hd]

/-- C8 as stated fails: a token service that answers `{}` makes `Token` succeed
with the empty token, which `request` then stores and sends. -/
theorem empty_object_is_a_token :
    unmarshalToken "\x7b\x7d" = .ok ⟨""⟩ ∧
    (Client.Token emptyTokenEnv demoClient catalogScope []).1 = .ok "" ∧
    (Client.requestBuild emptyTokenEnv demoClient demoCatalog catalogScope [] []).1 =
      .ok ⟨"GET", demoCatalog, [], [("Authorization", "Bearer ")]⟩ := by
  decide

/-- C8 (amended): when the token service has answered, `Token` fails with the
JSON syntax error if `encoding/json` does not accept the body (it is not one
JSON value, or it is nested deeper than 10000, as an object holding 10000 nested
arrays is); it succeeds with the empty token if the body is an accepted JSON
object without a `Token` member, and with the token `t` if the body is an
accepted JSON object whose one `Token` member is the string `t`. -/
theorem token_decoding (env : Env) (cli : Client) (scope : String)
    (tr : List Event) (ep : String) (resp : Response) (realm service : String)
    (req : Request) (resp2 : Response)
    (hj : env.joinPath cli.registry "/v2/" = .ok ep) (hp : env.parseURL ep = none)
    (hr : env.roundTrip (sent tr) ⟨"GET", ep, [], []⟩ = .ok resp)
    (hc : Client.tokenChallenge resp = .ok (realm, service))
    (hq : Client.tokenRequest env cli scope realm service = .ok req)
    (hr2 : env.roundTrip (sent tr ++ [⟨"GET", ep, [], []⟩]) req = .ok resp2)
    (he : resp2.readErr = none) :
    (jsonParse resp2.body = none →
      (Client.Token env cli scope tr).1 = .error .jsonSyntax) ∧
    (∀ members : List (String × Json), jsonParse resp2.body = some (.obj members) →
      (∀ kv ∈ members, keyIs kv.1 "Token" = false) →
      (Client.Token env cli scope tr).1 = .ok "") ∧
    (∀ (before after : List (String × Json)) (k t : String),
      jsonParse resp2.body = some (.obj (before ++ (k, .str t) :: after)) →
      (∀ kv ∈ before, keyIs kv.1 "Token" = false) → keyIs k "Token" = true →
      (∀ kv ∈ after, keyIs kv.1 "Token" = false) →
      (Client.Token env cli scope tr).1 = .ok t) ∧
    (∀ n : Nat, 10000 ≤ n → resp2.body = deepBody n →
      (Client.Token env cli scope tr).1 = .error .jsonSyntax) := by
  rw [Token_of_token_response env cli scope tr ep resp realm service req resp2 hj hp hr hc hq hr2]
  refine ⟨?_, ?_, ?_, ?_⟩
  · intro h
    simp [Client.tokenDecode, he, unmarshalToken_of_invalid _ h]
  · intro members h hk
    simp [Client.tokenDecode, he, unmarshalToken_of_no_key _ members h hk]
  · intro before after k t h hb hk ha
    simp [Client.tokenDecode, he, unmarshalToken_of_one_key _ before after k t h hb hk ha]
  · intro n hn hbody
    have h : jsonParse resp2.body = none := by
      rw [hbody]
      exact jsonParse_deepBody n hn
    simp [Client.tokenDecode, he, unmarshalToken_of_invalid _ h]

/-- C8, instances: a token service that answers with a web page, one that
answers `{}`, one that answers with the token `abc`, and one whose answer is an
object holding 10000 nested arrays. -/
theorem token_decoding_witness :
    (Client.Token htmlTokenEnv demoClient catalogScope []).1 = .error .jsonSyntax ∧
    (Client.Token emptyTokenEnv demoClient repositoryScope []).1 = .ok "" ∧
    (Client.Token catalogEnv demoClient catalogScope []).1 = .ok "abc" ∧
    (Client.Token deepTokenEnv demoClient catalogScope []).1 = .error .jsonSyntax :=
  ⟨(token_decoding htmlTokenEnv demoClient catalogScope [] demoV2 (unauthorized demoChallenge)
      "https://auth.example.com/token" "registry.example.com" (demoTokenRequest catalogScope)
      (okBody "<html></html>") (by decide) (by decide) (by decide) (by decide) (by decide)
      (by decide) (by decide)).1 (by rfl),
    (token_decoding emptyTokenEnv demoClient repositoryScope [] demoV2
      (unauthorized demoChallenge) "https://auth.example.com/token" "registry.example.com"
      (demoTokenRequest repositoryScope) (okBody "\x7b\x7d") (by decide) (by decide) (by decide)
      (by decide) (by decide) (by decide) (by decide)).2.1 [] (by rfl) (by decide),
    (token_decoding catalogEnv demoClient catalogScope [] demoV2
      (unauthorized demoChallenge) "https://auth.example.com/token" "registry.example.com"
      (demoTokenRequest catalogScope) (okBody "\x7b\"token\":\"abc\"\x7d") (by decide)
      (by decide) (by decide) (by decide) (by decide) (by decide) (by decide)).2.2.1
      [] [] "token" "abc" (by rfl) (by decide) (by decide) (by decide),
    (token_decoding deepTokenEnv demoClient catalogScope [] demoV2
      (unauthorized demoChallenge) "https://auth.example.com/token" "registry.example.com"
      (demoTokenRequest catalogScope) (okBody (deepBody maxNestingDepth)) (by decide)
      (by decide) (by decide) (by decide) (by decide) rfl rfl).2.2.2
      maxNestingDepth (by decide) rfl⟩

end Manifactory
